import Mathlib

/-!
Verification of the `sdk.texturec` texture compiler (BlockProject 3D).

This file shallowly embeds the data model and the algorithms of the
`compiler` crate (`src/compiler/src/{texture,swapchain,pipeline,lib}.rs`
and `src/compiler/src/filter/*.rs`) and proves or refutes the frozen
claims about it.

Modelling conventions:
* `u32` / `u8` values are modelled as `Nat`; the bounds (`< 256`,
  `< 2 ^ 32`) are carried as explicit hypotheses where they matter.
* An `f32` stored in a canvas is modelled by its 32-bit pattern
  (a `Nat < 2 ^ 32`): the claims about canvases only concern bit-exact
  storage, never float arithmetic on those bits.
* `f64` arithmetic (the greyscale luma computation) is modelled exactly,
  by rationals together with an IEEE-754 binary64 round-to-nearest-even
  rounding function `rnd64`.
* A Rust panic (a failed `expect`/`assert` or an out-of-bounds index) is
  modelled by `Option`, `none` meaning the panic.
* Buffer identity (which physical allocation a canvas is) is tracked by
  ghost id tags handed out by an allocation counter, so that claims about
  buffer reuse and liveness are statable.
-/

/-- Texture positions: `Point2<u32>` in the source. -/
structure Pos where
  x : Nat
  y : Nat
deriving DecidableEq, Repr

/-- `Format` from `texture.rs`: the five supported texel encodings. -/
inductive Format where
  | L8
  | LA8
  | RGBA8
  | RGBAF32
  | F32
deriving DecidableEq, Repr

/-- `Format::texel_size`: texel size in bytes. -/
def Format.texel_size : Format → Nat
  | .L8 => 1
  | .LA8 => 2
  | .RGBA8 => 4
  | .RGBAF32 => 16
  | .F32 => 4

/-- `Texel` from `texture.rs`. 8-bit channels are `Nat < 256`; the `F32`
payloads are the 32-bit patterns of the floats (`Nat < 2 ^ 32`). -/
inductive Texel where
  | L8 (l : Nat)
  | LA8 (l a : Nat)
  | RGBA8 (r g b a : Nat)
  | F32 (v : Nat)
  | RGBAF32 (r g b a : Nat)
deriving DecidableEq, Repr

/-- `Texel::format`. -/
def Texel.format : Texel → Format
  | .L8 _ => .L8
  | .LA8 _ _ => .LA8
  | .RGBA8 _ _ _ _ => .RGBA8
  | .F32 _ => .F32
  | .RGBAF32 _ _ _ _ => .RGBAF32

/-- `Texel::rgba`: RGBA quad for the 8-bit formats, `none` for floats. -/
def Texel.rgba : Texel → Option (Nat × Nat × Nat × Nat)
  | .L8 l => some (l, l, l, 255)
  | .LA8 l a => some (l, l, l, a)
  | .RGBA8 r g b a => some (r, g, b, a)
  | .F32 _ => none
  | .RGBAF32 _ _ _ _ => none

/-- Well-formed texel: channel values fit the machine types (`u8`,
`f32` bit pattern) they have in the source. -/
def Texel.Wf : Texel → Prop
  | .L8 l => l < 256
  | .LA8 l a => l < 256 ∧ a < 256
  | .RGBA8 r g b a => r < 256 ∧ g < 256 ∧ b < 256 ∧ a < 256
  | .F32 v => v < 2 ^ 32
  | .RGBAF32 r g b a => r < 2 ^ 32 ∧ g < 2 ^ 32 ∧ b < 2 ^ 32 ∧ a < 2 ^ 32

/-- `byteorder::LittleEndian::write_f32`: store a 32-bit pattern as four
little-endian bytes at `off`. -/
def writeU32LE (data : List Nat) (off v : Nat) : List Nat :=
  (((data.set off (v % 256)).set (off + 1) (v / 256 % 256)).set
      (off + 2) (v / 2 ^ 16 % 256)).set (off + 3) (v / 2 ^ 24 % 256)

/-- `byteorder::LittleEndian::read_f32`: reassemble a 32-bit pattern from
four little-endian bytes at `off`. -/
def readU32LE (data : List Nat) (off : Nat) : Nat :=
  data.getD off 0 + 256 * data.getD (off + 1) 0 +
    2 ^ 16 * data.getD (off + 2) 0 + 2 ^ 24 * data.getD (off + 3) 0

/-- `OutputTexture` from `texture.rs`: an owned byte buffer plus its
dimensions and format. -/
structure OutputTexture where
  width : Nat
  height : Nat
  format : Format
  data : List Nat
deriving DecidableEq, Repr

/-- `OutputTexture::new`: zero-filled buffer of `width*height*texel_size`
bytes. -/
def OutputTexture.new (width height : Nat) (format : Format) : OutputTexture :=
  ⟨width, height, format, List.replicate (width * height * format.texel_size) 0⟩

/-- `OutputTexture::base_offset`. -/
def OutputTexture.base_offset (t : OutputTexture) (x y : Nat) : Option Nat :=
  if t.width ≤ x ∨ t.height ≤ y then none
  else
    some (y * t.width * t.format.texel_size + x * t.format.texel_size)

/-- `OutputTexture::set`. The outer `Option` models the
`expect("Illegal output render target position")` panic; the `Bool` is
the source's return value (`false` on a format mismatch, which leaves
the buffer untouched). -/
def OutputTexture.set (t : OutputTexture) (pos : Pos) (texel : Texel) :
    Option (OutputTexture × Bool) :=
  match t.base_offset pos.x pos.y with
  | none => none
  | some offset =>
    match t.format, texel with
    | .L8, .L8 l => some ({ t with data := t.data.set offset l }, true)
    | .LA8, .LA8 l a =>
      some ({ t with data := (t.data.set offset l).set (offset + 1) a }, true)
    | .RGBA8, .RGBA8 r g b a =>
      let d := (((t.data.set offset r).set (offset + 1) g).set
        (offset + 2) b).set (offset + 3) a
      some ({ t with data := d }, true)
    | .RGBAF32, .RGBAF32 r g b a =>
      let d := writeU32LE (writeU32LE (writeU32LE (writeU32LE t.data offset r)
        (offset + 4) g) (offset + 8) b) (offset + 12) a
      some ({ t with data := d }, true)
    | .F32, .F32 v => some ({ t with data := writeU32LE t.data offset v }, true)
    | _, _ => some (t, false)

/-- `<OutputTexture as Texture>::get`: `none` when the position is out of
range (`base_offset` returns `None` and `?` propagates it). -/
def OutputTexture.get (t : OutputTexture) (pos : Pos) : Option Texel :=
  match t.base_offset pos.x pos.y with
  | none => none
  | some offset =>
    some (match t.format with
    | .L8 => .L8 (t.data.getD offset 0)
    | .LA8 => .LA8 (t.data.getD offset 0) (t.data.getD (offset + 1) 0)
    | .RGBA8 =>
      .RGBA8 (t.data.getD offset 0) (t.data.getD (offset + 1) 0)
        (t.data.getD (offset + 2) 0) (t.data.getD (offset + 3) 0)
    | .RGBAF32 =>
      .RGBAF32 (readU32LE t.data offset) (readU32LE t.data (offset + 4))
        (readU32LE t.data (offset + 8)) (readU32LE t.data (offset + 12))
    | .F32 => .F32 (readU32LE t.data offset))

/-- Well-formed canvas: the buffer has exactly the allocated size (as
`OutputTexture::new` guarantees and `set` preserves). -/
def OutputTexture.Wf (t : OutputTexture) : Prop :=
  t.data.length = t.width * t.height * t.format.texel_size

/-- Rust `u32::is_power_of_two`: true exactly on powers of two (false
on 0). -/
def isPow2 : Nat → Bool
  | 0 => false
  | 1 => true
  | n + 2 => decide ((n + 2) % 2 = 0) && isPow2 ((n + 2) / 2)
decreasing_by omega

/-- Rust `u32::next_power_of_two` (as used on non-powers of two): the
smallest power of two greater than or equal to `n`. -/
def nextPow2 (n : Nat) : Nat :=
  if n ≤ 1 then 1 else 2 * nextPow2 ((n + 1) / 2)
decreasing_by omega

/-- `SwapChain` from `swapchain.rs` (`SWAP_CHAIN_LEN = 2`): the two
slots, the rotating `index`, and the canvas parameters. Each slot
carries a ghost allocation id next to the canvas, and `fresh` is the
ghost allocation counter (the next id, equal to the number of
`OutputTexture::new` calls made so far) — instrumentation only, it
affects no modelled behaviour. -/
structure SwapChain where
  slot0 : Option (Nat × OutputTexture)
  slot1 : Option (Nat × OutputTexture)
  index : Nat
  width : Nat
  height : Nat
  format : Format
  fresh : Nat

/-- `SwapChain::new`: a chain of two empty slots whose width and height
are rounded up to the next power of two when not already powers of
two. -/
def SwapChain.new (width height : Nat) (format : Format) : SwapChain where
  slot0 := none
  slot1 := none
  index := 0
  width := if isPow2 width then width else nextPow2 width
  height := if isPow2 height then height else nextPow2 height
  format := format
  fresh := 0

/-- `SwapChain::next`: wrap `index` to 0 when it reached the end, take
the canvas out of the slot (allocating `OutputTexture::new` at the chain
dimensions when the slot is empty), and advance `index`. -/
def SwapChain.next (sc : SwapChain) : (Nat × OutputTexture) × SwapChain :=
  let i := if 2 ≤ sc.index then 0 else sc.index
  match if i = 0 then sc.slot0 else sc.slot1 with
  | some t =>
    (t, { sc with slot0 := if i = 0 then none else sc.slot0,
                  slot1 := if i = 0 then sc.slot1 else none,
                  index := i + 1 })
  | none =>
    ((sc.fresh, OutputTexture.new sc.width sc.height sc.format),
     { sc with index := i + 1, fresh := sc.fresh + 1 })

/-- `SwapChain::put_back`: wrap `index` to 0 when it reached the end,
store the canvas in the slot, and advance `index`. -/
def SwapChain.put_back (sc : SwapChain) (t : Nat × OutputTexture) : SwapChain :=
  let i := if 2 ≤ sc.index then 0 else sc.index
  { sc with slot0 := if i = 0 then some t else sc.slot0,
            slot1 := if i = 0 then sc.slot1 else some t,
            index := i + 1 }

/-- The `FrameBufferError` family of the filter contract. The compiler
crate's `filter/mod.rs` is not among the provided sources; the variants
are those constructed by the provided filters plus the `lib` crate's
copy of the same contract (its `Other(String)` variant, never
constructed by the stock filters, is omitted). -/
inductive FrameBufferError where
  | MissingPrevious
  | UnsupportedSize
  | UnsupportedFormat
  | UnsupportedPreviousSize
  | UnsupportedPreviousFormat
deriving DecidableEq, Repr

/-- `FrameBuffer` exactly as `Pipeline::next_pass` constructs it: the
optional shared reference to the previous pass's canvas and the swap
chain's width, height and format. -/
structure FrameBuffer where
  previous : Option OutputTexture
  width : Nat
  height : Nat
  format : Format

/-- One pass's ghost trace record: the render target's allocation id and
final (merged) contents, and the id and contents of the canvas passed as
`previous` (if any). -/
structure PassRec where
  rtId : Nat
  rtCanvas : OutputTexture
  prevId : Option Nat
  prevCanvas : Option OutputTexture

/-- Scheduler state: swap chain, current pass index and worker count,
plus ghost instrumentation (`live` = canvases acquired from the chain
and not yet released; `maxLive` = its high-water mark). -/
structure PipelineSt where
  sc : SwapChain
  curPass : Nat
  nthreads : Nat
  live : Nat
  maxLive : Nat

/-- A `SwapChain::next` call made by the pipeline, with the ghost
liveness counters updated. -/
def PipelineSt.acquire (st : PipelineSt) : (Nat × OutputTexture) × PipelineSt :=
  let (t, sc) := st.sc.next
  (t, { st with sc := sc, live := st.live + 1,
                maxLive := max st.maxLive (st.live + 1) })

/-- A `SwapChain::put_back` call made by the pipeline, with the ghost
liveness counter updated. -/
def PipelineSt.release (st : PipelineSt) (t : Nat × OutputTexture) : PipelineSt :=
  { st with sc := st.sc.put_back t, live := st.live - 1 }

/-- The function-pool construction loop of `next_pass`: `new_function`
is called once per worker slot and any error aborts via `?`. The compute
objects are abstracted as `Pos → Texel` (the source `Function::apply`
for one fixed frame buffer). -/
def buildFuncs {F : Type} (newFn : FrameBuffer → Except FrameBufferError F)
    (fb : FrameBuffer) : Nat → Except FrameBufferError (List F)
  | 0 => .ok []
  | n + 1 =>
    match newFn fb with
    | .error e => .error e
    | .ok f =>
      match buildFuncs newFn fb n with
      | .error e => .error e
      | .ok fs => .ok (f :: fs)

/-- The task submission double loop of `next_pass`: one task per canvas
position, rows outer, columns inner; each task returns
`(pos, func.apply pos)`. -/
def taskResults (w h : Nat) (f : Pos → Texel) : List (Pos × Texel) :=
  (List.range h).flatMap fun y => (List.range w).map fun x => (⟨x, y⟩, f ⟨x, y⟩)

/-- One step of the serial merge loop: apply one task result to the
render target with `set`; a `false` return (format mismatch) only drops
the write; `none` propagates the `set` panic. -/
def mergeStep (acc : Option OutputTexture) (r : Pos × Texel) : Option OutputTexture :=
  match acc with
  | none => none
  | some rt =>
    match rt.set r.1 r.2 with
    | none => none
    | some (rt2, _) => some rt2

/-- The serial merge loop of `next_pass` over a list of task results (in
their arrival order). -/
def mergeResults (rt : OutputTexture) (rs : List (Pos × Texel)) : Option OutputTexture :=
  rs.foldl mergeStep (some rt)

/-- The tail of a successful pass: advance `cur_pass`, put the previous
canvas (if any) back, then put the merged render target back; also emit
the pass's trace record. -/
def finishPass (st : PipelineSt) (rt : Nat × OutputTexture)
    (prev : Option (Nat × OutputTexture)) (rtm : OutputTexture) :
    PipelineSt × PassRec :=
  let st3 := { st with curPass := st.curPass + 1 }
  let st4 := match prev with
  | some p => st3.release p
  | none => st3
  let st5 := st4.release (rt.1, rtm)
  (st5, ⟨rt.1, rtm, prev.map Prod.fst, prev.map Prod.snd⟩)

/-- `Pipeline::next_pass` for the pass's filter abstracted as its
`new_function`. The outer `Option` models panics: popping the function
pool when it was built with zero workers, or an out-of-range merge
write. The `Except` layer carries a `new_function` error: the pass
aborts with zero tasks submitted, and (matching the early `?` return)
the canvases acquired for the pass are dropped, not put back. -/
def nextPass {F : Type} (ap : F → Pos → Texel)
    (newFn : FrameBuffer → Except FrameBufferError F)
    (st : PipelineSt) : Option (Except FrameBufferError (PipelineSt × PassRec)) :=
  let (rt, st1) := st.acquire
  let (prev, st2) := if st.curPass = 0 then (none, st1)
    else
      let (p, st1b) := st1.acquire
      (some p, st1b)
  let fb : FrameBuffer :=
    ⟨prev.map Prod.snd, st2.sc.width, st2.sc.height, st2.sc.format⟩
  match buildFuncs newFn fb st.nthreads with
  | .error e => some (.error e)
  | .ok [] =>
    if st2.sc.width * st2.sc.height = 0 then some (.ok (finishPass st2 rt prev rt.2))
    else none
  | .ok (f :: _) =>
    match mergeResults rt.2 (taskResults st2.sc.width st2.sc.height (ap f)) with
    | none => none
    | some rtm => some (.ok (finishPass st2 rt prev rtm))

/-- Driving the pipeline for `n` passes (the `for _ in 0..pass_count`
loop of `Compiler::run`), collecting the per-pass trace records in
chronological order. -/
def runPipeline {F : Type} (ap : F → Pos → Texel)
    (newFns : Nat → FrameBuffer → Except FrameBufferError F) :
    Nat → PipelineSt → Option (Except FrameBufferError (PipelineSt × List PassRec))
  | 0, st => some (.ok (st, []))
  | n + 1, st =>
    match nextPass ap (newFns st.curPass) st with
    | none => none
    | some (.error e) => some (.error e)
    | some (.ok (st1, rec)) =>
      match runPipeline ap newFns n st1 with
      | none => none
      | some (.error e) => some (.error e)
      | some (.ok (st2, recs)) => some (.ok (st2, rec :: recs))

/-- `Pipeline::finish` (legal only once `cur_pass > 0`): drain the swap
chain with two `next` calls, discard the first canvas and return the
second. -/
def finishRun (st : PipelineSt) : (Nat × OutputTexture) × PipelineSt :=
  let (_, st1) := st.acquire
  st1.acquire

/-- The initial pipeline state built by `Compiler::run`: a fresh swap
chain and pass counter 0. -/
def initPipeline (w h : Nat) (fmt : Format) (nthreads : Nat) : PipelineSt :=
  ⟨SwapChain.new w h fmt, 0, nthreads, 0, 0⟩

/-- Ghost trace property: every record in the list receives as
`previous` exactly the render target produced by the preceding pass,
starting from the given id/canvas. -/
def Chained : Nat → OutputTexture → List PassRec → Prop
  | _, _, [] => True
  | b, cb, r :: rs =>
    r.prevId = some b ∧ r.prevCanvas = some cb ∧ Chained r.rtId r.rtCanvas rs

/-- The id/canvas of the last render target: the last record's, or the
given base when the list is empty. -/
def lastRt (b : Nat) (cb : OutputTexture) (recs : List PassRec) :
    Nat × OutputTexture :=
  match recs.getLast? with
  | some r => (r.rtId, r.rtCanvas)
  | none => (b, cb)

/-- Ghost trace property of a whole run: pass 0 received no previous
canvas, and every later pass received the render target of its
predecessor. -/
def TraceOk : List PassRec → Prop
  | [] => True
  | r :: rs => r.prevId = none ∧ r.prevCanvas = none ∧ Chained r.rtId r.rtCanvas rs

/-- `greyscale::Func` (`filter/greyscale.rs`): the compute object's
fields. The `size` field is a `Vec2f` in the source (cast from the two
`u32` dimensions, used only for sampling); it is kept here as the
integer pair it is cast from. -/
structure GreyscaleFunc where
  buffer : OutputTexture
  is_equal_size : Bool
  size : Nat × Nat
  format : Format

/-- `Greyscale` filter descriptor (`alpha` parameter). -/
structure Greyscale where
  alpha : Bool

/-- `Greyscale::get_texture_size`: no preferred size. -/
def Greyscale.get_texture_size (_ : Greyscale) : Option (Nat × Nat) := none

/-- `Greyscale::get_texture_format`: LA8 when `alpha` else L8. -/
def Greyscale.get_texture_format (g : Greyscale) : Option Format :=
  if g.alpha then some .LA8 else some .L8

/-- `Greyscale::new_function`: requires a previous canvas
(`MissingPrevious` otherwise), an L8/LA8 frame buffer format
(`UnsupportedFormat` otherwise, checked first), and an RGBA8 previous
canvas (`UnsupportedPreviousFormat` otherwise, checked last). -/
def Greyscale.new_function (_ : Greyscale) (fb : FrameBuffer) :
    Except FrameBufferError GreyscaleFunc :=
  match fb.previous with
  | none => .error .MissingPrevious
  | some previous =>
    if fb.format ≠ .L8 ∧ fb.format ≠ .LA8 then .error .UnsupportedFormat
    else if previous.format ≠ .RGBA8 then .error .UnsupportedPreviousFormat
    else .ok ⟨previous,
      decide (fb.width = previous.width ∧ fb.height = previous.height),
      (fb.width, fb.height), fb.format⟩

/-- `noise::Func::apply` in `Random` mode draws fresh samples from the
operating system entropy source (`OsRng`) for every texel; nothing ties
the draws to the pipeline configuration. The draws are modelled as an
external entropy stream indexed by position and channel: `Uniform(0..=255)`
draws for the 8-bit formats, and the bit patterns of the `Standard`
float draws for the float formats. -/
def noiseRandomApply (entropy : Pos → Nat → Nat) (fmt : Format) (pos : Pos) :
    Texel :=
  match fmt with
  | .L8 => .L8 (entropy pos 0 % 256)
  | .LA8 => .LA8 (entropy pos 0 % 256) (entropy pos 1 % 256)
  | .RGBA8 => .RGBA8 (entropy pos 0 % 256) (entropy pos 1 % 256)
      (entropy pos 2 % 256) (entropy pos 3 % 256)
  | .RGBAF32 => .RGBAF32 (entropy pos 0 % 2 ^ 32) (entropy pos 1 % 2 ^ 32)
      (entropy pos 2 % 2 ^ 32) (entropy pos 3 % 2 ^ 32)
  | .F32 => .F32 (entropy pos 0 % 2 ^ 32)

/-- `DEFAULT_WIDTH` from `lib.rs`. -/
def DEFAULT_WIDTH : Nat := 256

/-- `DEFAULT_HEIGHT` from `lib.rs`. -/
def DEFAULT_HEIGHT : Nat := 256

/-- What `Compiler::run`'s negotiation reads from each filter:
`get_texture_size()` and `get_texture_format()`. -/
structure FilterDecl where
  texture_size : Option (Nat × Nat)
  texture_format : Option Format

/-- The `for f in &self.filters` negotiation loop of `Compiler::run`:
a filter's size fills whichever of width/height is still unset; a
filter's format fills the format if still unset. -/
def negotiateLoop : List FilterDecl → Option Nat → Option Nat → Option Format →
    Option Nat × Option Nat × Option Format
  | [], w, h, fo => (w, h, fo)
  | fl :: rest, w, h, fo =>
    let w2 := match fl.texture_size with
      | some (sw, _) => if w.isNone then some sw else w
      | none => w
    let h2 := match fl.texture_size with
      | some (_, sh) => if h.isNone then some sh else h
      | none => h
    let fo2 := if fo.isNone then
        match fl.texture_format with
        | some ff => some ff
        | none => fo
      else fo
    negotiateLoop rest w2 h2 fo2

/-- The size/format negotiation of `Compiler::run`: the loop runs only
when at least one of width/height/format was left unspecified, then the
fixed defaults (256, 256, RGBA8) fill anything still unset. -/
def negotiate (filters : List FilterDecl) (w h : Option Nat)
    (fo : Option Format) : Nat × Nat × Format :=
  let r := if w.isNone || h.isNone || fo.isNone then negotiateLoop filters w h fo
    else (w, h, fo)
  (r.1.getD DEFAULT_WIDTH, r.2.1.getD DEFAULT_HEIGHT, r.2.2.getD .RGBA8)

/-- The number of pixel tasks `next_pass` submits to the worker pool:
zero when function construction fails (the `?` returns before the
submission loop), the full canvas otherwise. -/
def nextPassTasks {F : Type} (newFn : FrameBuffer → Except FrameBufferError F)
    (st : PipelineSt) : Nat :=
  let (_, st1) := st.acquire
  let (prev, st2) := if st.curPass = 0 then (none, st1)
    else
      let (p, st1b) := st1.acquire
      (some p, st1b)
  let fb : FrameBuffer :=
    ⟨prev.map Prod.snd, st2.sc.width, st2.sc.height, st2.sc.format⟩
  match buildFuncs newFn fb st.nthreads with
  | .error _ => 0
  | .ok _ => st2.sc.width * st2.sc.height

/-- The four little-endian bytes of a 32-bit pattern (proof-layer view
of one `write_f32`). -/
def u32Bytes (v : Nat) : List Nat :=
  [v % 256, v / 256 % 256, v / 2 ^ 16 % 256, v / 2 ^ 24 % 256]

/-- Write a run of bytes at consecutive offsets (proof-layer view of the
byte stores a `set` performs). -/
def writeBytes (data : List Nat) (off : Nat) : List Nat → List Nat
  | [] => data
  | b :: bs => writeBytes (data.set off b) (off + 1) bs

/-- The bytes `set` stores for a texel on a canvas of the given format:
`none` exactly on a format mismatch (where `set` stores nothing). -/
def texelBytes : Format → Texel → Option (List Nat)
  | .L8, .L8 l => some [l]
  | .LA8, .LA8 l a => some [l, a]
  | .RGBA8, .RGBA8 r g b a => some [r, g, b, a]
  | .RGBAF32, .RGBAF32 r g b a =>
    some (u32Bytes r ++ u32Bytes g ++ u32Bytes b ++ u32Bytes a)
  | .F32, .F32 v => some (u32Bytes v)
  | _, _ => none

/-- The data transform `set` applies at an in-range position: write the
texel's bytes at its offset on a format match, store nothing on a
mismatch (proof-layer characterization of `set`). -/
def setBytesData (t : OutputTexture) (p : Pos) (tx : Texel) : List Nat :=
  match texelBytes t.format tx with
  | some bs =>
    writeBytes t.data
      (p.y * t.width * t.format.texel_size + p.x * t.format.texel_size) bs
  | none => t.data

/-- Round-to-nearest, ties-to-even: the integer an IEEE-754 operation picks
for a real value `x` already scaled so that the representable neighbours of
`x` are consecutive integers. -/
def roundHalfEven (x : ℚ) : ℤ :=
  if x - ⌊x⌋ < 1 / 2 then ⌊x⌋
  else if 1 / 2 < x - ⌊x⌋ then ⌊x⌋ + 1
  else if ⌊x⌋ % 2 = 0 then ⌊x⌋ else ⌊x⌋ + 1

/-- Exact binary64 rounding of a positive rational: scale by a power of two
so the 53-bit significand window `[2^52, 2^53)` lands on the integers, round
half-to-even, and scale back. All values arising in the luma computation
are far inside the normal range, so neither subnormals nor overflow arise. -/
def rnd64Pos (q : ℚ) : ℚ :=
  (roundHalfEven (q * 2 ^ ((52 : ℤ) - Int.log 2 q)) : ℚ) *
    2 ^ (Int.log 2 q - 52)

/-- Exact binary64 rounding (`f64` round-to-nearest-even) of a rational. -/
def rnd64 (q : ℚ) : ℚ :=
  if q = 0 then 0 else if q < 0 then - rnd64Pos (-q) else rnd64Pos q

/-- The `f64` value of `(0.257 * r as f64 + 0.504 * g as f64 + 0.098 * b
as f64) + 16.0).clamp(0.0, 255.0)` from `greyscale::Func::apply`, computed
exactly: every literal and every intermediate is rounded to binary64 in
Rust evaluation order (the two `+` of the luma polynomial associate to the
left). The clamp is exact (`16.0` and `255.0` are representable). -/
def lumaF64 (r g b : Nat) : ℚ :=
  let c1 := rnd64 (257 / 1000)
  let c2 := rnd64 (504 / 1000)
  let c3 := rnd64 (98 / 1000)
  let t1 := rnd64 (c1 * r)
  let t2 := rnd64 (c2 * g)
  let t3 := rnd64 (c3 * b)
  let s1 := rnd64 (t1 + t2)
  let s2 := rnd64 (s1 + t3)
  let s3 := rnd64 (s2 + 16)
  min (max s3 0) 255

/-- The narrowing step of `greyscale::Func::apply` on the texel fetched
from the previous canvas: `luma as _` on the already-clamped nonnegative
`f64` truncates toward zero (`Int.toNat ⌊·⌋`); the `LA8` arm passes the
source alpha through. `none` models the two `unwrap_unchecked` calls (the
fetched texel has no RGBA view) and the `std::unreachable!()` arm. -/
def greyscaleApply (fmt : Format) (texel : Texel) : Option Texel :=
  match texel.rgba with
  | none => none
  | some (r, g, b, a) =>
    match fmt with
    | .L8 => some (.L8 (Int.toNat ⌊lumaF64 r g b⌋))
    | .LA8 => some (.LA8 (Int.toNat ⌊lumaF64 r g b⌋) a)
    | _ => none

/-- `resample::Func::convert`: a texel already of the output format is
returned unchanged; otherwise the output is rebuilt from `texel.rgba()`,
whose quad for `RGBA8 (r, g, b, a)` is `(r, g, b, a)` — so the `L8` arm
keeps the red channel and the `LA8` arm keeps (red, green). `none` models
`rgba()` returning `None` under `unwrap_unchecked`. -/
def resampleConvert (fmt : Format) (texel : Texel) : Option Texel :=
  if texel.format = fmt then some texel
  else
    match fmt with
    | .L8 => texel.rgba.map fun q => .L8 q.1
    | .LA8 => texel.rgba.map fun q => .LA8 q.1 q.2.1
    | .RGBA8 => texel.rgba.map fun q => .RGBA8 q.1 q.2.1 q.2.2.1 q.2.2.2
    | .RGBAF32 => some texel
    | .F32 => some texel

-- ===========================================================================
-- Theorems
-- ===========================================================================

theorem getD_set_self (l : List Nat) (i v d : Nat) (h : i < l.length) :
    (l.set i v).getD i d = v := by
  induction l generalizing i with
  | nil => simp at h
  | cons a t ih =>
    cases i with
    | zero => simp [List.set, List.getD]
    | succ n =>
      simp only [List.set, List.getD, List.getElem?_cons_succ]
      have := ih n (by simpa using Nat.lt_of_succ_lt_succ h)
      simpa [List.getD] using this

theorem getD_set_ne (l : List Nat) (i j v d : Nat) (h : i ≠ j) :
    (l.set i v).getD j d = l.getD j d := by
  induction l generalizing i j with
  | nil => simp [List.set]
  | cons a t ih =>
    cases i with
    | zero =>
      cases j with
      | zero => exact absurd rfl h
      | succ m => simp [List.set, List.getD]
    | succ n =>
      cases j with
      | zero => simp [List.set, List.getD]
      | succ m =>
        simp only [List.set, List.getD, List.getElem?_cons_succ]
        have := ih n m (fun hnm => h (by omega))
        simpa [List.getD] using this

theorem writeU32LE_length (data : List Nat) (off v : Nat) :
    (writeU32LE data off v).length = data.length := by
  simp [writeU32LE]

theorem getD_writeU32LE_lt (data : List Nat) (off v j : Nat) (h : j < off) :
    (writeU32LE data off v).getD j 0 = data.getD j 0 := by
  unfold writeU32LE
  rw [getD_set_ne _ _ _ _ _ (by omega), getD_set_ne _ _ _ _ _ (by omega),
    getD_set_ne _ _ _ _ _ (by omega), getD_set_ne _ _ _ _ _ (by omega)]

theorem readU32LE_writeU32LE_lt (data : List Nat) (off v j : Nat)
    (h : j + 4 ≤ off) : readU32LE (writeU32LE data off v) j = readU32LE data j := by
  unfold readU32LE
  rw [getD_writeU32LE_lt _ _ _ _ (by omega), getD_writeU32LE_lt _ _ _ _ (by omega),
    getD_writeU32LE_lt _ _ _ _ (by omega), getD_writeU32LE_lt _ _ _ _ (by omega)]

theorem getD_writeU32LE_ge (data : List Nat) (off v j : Nat) (h : off + 4 ≤ j) :
    (writeU32LE data off v).getD j 0 = data.getD j 0 := by
  unfold writeU32LE
  rw [getD_set_ne _ _ _ _ _ (by omega), getD_set_ne _ _ _ _ _ (by omega),
    getD_set_ne _ _ _ _ _ (by omega), getD_set_ne _ _ _ _ _ (by omega)]

theorem readU32LE_writeU32LE_ge (data : List Nat) (off v j : Nat)
    (h : off + 4 ≤ j) : readU32LE (writeU32LE data off v) j = readU32LE data j := by
  unfold readU32LE
  rw [getD_writeU32LE_ge _ _ _ _ (by omega), getD_writeU32LE_ge _ _ _ _ (by omega),
    getD_writeU32LE_ge _ _ _ _ (by omega), getD_writeU32LE_ge _ _ _ _ (by omega)]

theorem readU32LE_writeU32LE_self (data : List Nat) (off v : Nat)
    (hlen : off + 4 ≤ data.length) (hv : v < 2 ^ 32) :
    readU32LE (writeU32LE data off v) off = v := by
  unfold readU32LE writeU32LE
  have l0 : off < data.length := by omega
  have l1 : off + 1 < data.length := by omega
  have l2 : off + 2 < data.length := by omega
  have l3 : off + 3 < data.length := by omega
  rw [getD_set_ne _ _ _ _ _ (by omega), getD_set_ne _ _ _ _ _ (by omega),
    getD_set_ne _ _ _ _ _ (by omega),
    getD_set_self _ _ _ _ (by simpa using l0)]
  rw [getD_set_ne _ _ _ _ _ (by omega), getD_set_ne _ _ _ _ _ (by omega),
    getD_set_self _ _ _ _ (by simpa using l1)]
  rw [getD_set_ne _ _ _ _ _ (by omega),
    getD_set_self _ _ _ _ (by simpa using l2)]
  rw [getD_set_self _ _ _ _ (by simpa using l3)]
  omega

theorem offset_lt (x y w h s : Nat) (hx : x < w) (hy : y < h) :
    y * w * s + x * s + s ≤ w * h * s := by
  have h1 : y * w + x + 1 ≤ w * h := by
    calc y * w + x + 1 ≤ y * w + w := by omega
    _ = (y + 1) * w := by ring
    _ ≤ h * w := Nat.mul_le_mul_right w hy
    _ = w * h := Nat.mul_comm h w
  calc y * w * s + x * s + s = (y * w + x + 1) * s := by ring
  _ ≤ (w * h) * s := Nat.mul_le_mul_right s h1
  _ = w * h * s := rfl
/-- C3 helper: the round-trip for a canvas destructured into its fields,
case split on the texel. -/
theorem set_get_roundtrip (t : OutputTexture) (p : Pos) (tx : Texel)
    (hwf : t.Wf) (hx : p.x < t.width) (hy : p.y < t.height)
    (hfmt : tx.format = t.format) (htx : tx.Wf) :
    ∃ u : OutputTexture, t.set p tx = some (u, true) ∧ u.get p = some tx := by
  obtain ⟨w, h, fmt, data⟩ := t
  obtain ⟨x, y⟩ := p
  simp only [OutputTexture.Wf] at hwf
  simp only at hx hy hfmt ⊢
  cases tx with
  | L8 l =>
    simp only [Texel.format] at hfmt
    subst hfmt
    simp only [Format.texel_size] at hwf
    have hbo : OutputTexture.base_offset ⟨w, h, .L8, data⟩ x y =
        some (y * w * 1 + x * 1) := by
      simp only [OutputTexture.base_offset, Format.texel_size]
      rw [if_neg (by omega)]
    have hoff := offset_lt x y w h 1 hx hy
    have hset : OutputTexture.set ⟨w, h, .L8, data⟩ ⟨x, y⟩ (.L8 l) =
        some (⟨w, h, .L8, data.set (y * w * 1 + x * 1) l⟩, true) := by
      unfold OutputTexture.set
      rw [hbo]
    have hbo2 : OutputTexture.base_offset ⟨w, h, .L8, data.set (y * w * 1 + x * 1) l⟩ x y =
        some (y * w * 1 + x * 1) := by
      simp only [OutputTexture.base_offset, Format.texel_size]
      rw [if_neg (by omega)]
    have hget : OutputTexture.get ⟨w, h, .L8, data.set (y * w * 1 + x * 1) l⟩ ⟨x, y⟩ =
        some (.L8 l) := by
      unfold OutputTexture.get
      rw [hbo2]
      simp only [Option.some.injEq]
      rw [getD_set_self _ _ _ _ (by omega)]
    exact ⟨_, hset, hget⟩
  | LA8 l a =>
    simp only [Texel.format] at hfmt
    subst hfmt
    simp only [Format.texel_size] at hwf
    have hbo : OutputTexture.base_offset ⟨w, h, .LA8, data⟩ x y =
        some (y * w * 2 + x * 2) := by
      simp only [OutputTexture.base_offset, Format.texel_size]
      rw [if_neg (by omega)]
    have hoff := offset_lt x y w h 2 hx hy
    have hset : OutputTexture.set ⟨w, h, .LA8, data⟩ ⟨x, y⟩ (.LA8 l a) =
        some (⟨w, h, .LA8,
          (data.set (y * w * 2 + x * 2) l).set (y * w * 2 + x * 2 + 1) a⟩, true) := by
      unfold OutputTexture.set
      rw [hbo]
    have hbo2 : OutputTexture.base_offset ⟨w, h, .LA8,
        (data.set (y * w * 2 + x * 2) l).set (y * w * 2 + x * 2 + 1) a⟩ x y =
        some (y * w * 2 + x * 2) := by
      simp only [OutputTexture.base_offset, Format.texel_size]
      rw [if_neg (by omega)]
    have hget : OutputTexture.get ⟨w, h, .LA8,
        (data.set (y * w * 2 + x * 2) l).set (y * w * 2 + x * 2 + 1) a⟩ ⟨x, y⟩ =
        some (.LA8 l a) := by
      unfold OutputTexture.get
      rw [hbo2]
      simp only [Option.some.injEq]
      rw [getD_set_ne _ _ _ _ _ (by omega), getD_set_self _ _ _ _ (by omega),
        getD_set_self _ _ _ _ (by simp only [List.length_set]; omega)]
    exact ⟨_, hset, hget⟩
  | RGBA8 r g b a =>
    simp only [Texel.format] at hfmt
    subst hfmt
    simp only [Format.texel_size] at hwf
    have hbo : OutputTexture.base_offset ⟨w, h, .RGBA8, data⟩ x y =
        some (y * w * 4 + x * 4) := by
      simp only [OutputTexture.base_offset, Format.texel_size]
      rw [if_neg (by omega)]
    have hoff := offset_lt x y w h 4 hx hy
    have hset : OutputTexture.set ⟨w, h, .RGBA8, data⟩ ⟨x, y⟩ (.RGBA8 r g b a) =
        some (⟨w, h, .RGBA8,
          (((data.set (y * w * 4 + x * 4) r).set (y * w * 4 + x * 4 + 1) g).set
            (y * w * 4 + x * 4 + 2) b).set (y * w * 4 + x * 4 + 3) a⟩, true) := by
      unfold OutputTexture.set
      rw [hbo]
    have hbo2 : OutputTexture.base_offset ⟨w, h, .RGBA8,
        (((data.set (y * w * 4 + x * 4) r).set (y * w * 4 + x * 4 + 1) g).set
          (y * w * 4 + x * 4 + 2) b).set (y * w * 4 + x * 4 + 3) a⟩ x y =
        some (y * w * 4 + x * 4) := by
      simp only [OutputTexture.base_offset, Format.texel_size]
      rw [if_neg (by omega)]
    have hget : OutputTexture.get ⟨w, h, .RGBA8,
        (((data.set (y * w * 4 + x * 4) r).set (y * w * 4 + x * 4 + 1) g).set
          (y * w * 4 + x * 4 + 2) b).set (y * w * 4 + x * 4 + 3) a⟩ ⟨x, y⟩ =
        some (.RGBA8 r g b a) := by
      unfold OutputTexture.get
      rw [hbo2]
      simp only [Option.some.injEq]
      rw [getD_set_ne _ _ _ _ _ (by omega), getD_set_ne _ _ _ _ _ (by omega),
        getD_set_ne _ _ _ _ _ (by omega), getD_set_self _ _ _ _ (by omega)]
      rw [getD_set_ne _ _ _ _ _ (by omega), getD_set_ne _ _ _ _ _ (by omega),
        getD_set_self _ _ _ _ (by simp only [List.length_set]; omega)]
      rw [getD_set_ne _ _ _ _ _ (by omega),
        getD_set_self _ _ _ _ (by simp only [List.length_set]; omega)]
      rw [getD_set_self _ _ _ _ (by simp only [List.length_set]; omega)]
    exact ⟨_, hset, hget⟩
  | F32 v =>
    simp only [Texel.format] at hfmt
    subst hfmt
    simp only [Format.texel_size] at hwf
    have hbo : OutputTexture.base_offset ⟨w, h, .F32, data⟩ x y =
        some (y * w * 4 + x * 4) := by
      simp only [OutputTexture.base_offset, Format.texel_size]
      rw [if_neg (by omega)]
    have hoff := offset_lt x y w h 4 hx hy
    have hset : OutputTexture.set ⟨w, h, .F32, data⟩ ⟨x, y⟩ (.F32 v) =
        some (⟨w, h, .F32, writeU32LE data (y * w * 4 + x * 4) v⟩, true) := by
      unfold OutputTexture.set
      rw [hbo]
    have hbo2 : OutputTexture.base_offset
        ⟨w, h, .F32, writeU32LE data (y * w * 4 + x * 4) v⟩ x y =
        some (y * w * 4 + x * 4) := by
      simp only [OutputTexture.base_offset, Format.texel_size]
      rw [if_neg (by omega)]
    have hget : OutputTexture.get
        ⟨w, h, .F32, writeU32LE data (y * w * 4 + x * 4) v⟩ ⟨x, y⟩ =
        some (.F32 v) := by
      unfold OutputTexture.get
      rw [hbo2]
      simp only [Option.some.injEq]
      rw [readU32LE_writeU32LE_self _ _ _ (by omega) htx]
    exact ⟨_, hset, hget⟩
  | RGBAF32 r g b a =>
    obtain ⟨hr, hg, hb, ha⟩ := htx
    simp only [Texel.format] at hfmt
    subst hfmt
    simp only [Format.texel_size] at hwf
    have hbo : OutputTexture.base_offset ⟨w, h, .RGBAF32, data⟩ x y =
        some (y * w * 16 + x * 16) := by
      simp only [OutputTexture.base_offset, Format.texel_size]
      rw [if_neg (by omega)]
    have hoff := offset_lt x y w h 16 hx hy
    have hset : OutputTexture.set ⟨w, h, .RGBAF32, data⟩ ⟨x, y⟩ (.RGBAF32 r g b a) =
        some (⟨w, h, .RGBAF32,
          writeU32LE (writeU32LE (writeU32LE (writeU32LE data (y * w * 16 + x * 16) r)
            (y * w * 16 + x * 16 + 4) g) (y * w * 16 + x * 16 + 8) b)
            (y * w * 16 + x * 16 + 12) a⟩, true) := by
      unfold OutputTexture.set
      rw [hbo]
    have hbo2 : OutputTexture.base_offset ⟨w, h, .RGBAF32,
        writeU32LE (writeU32LE (writeU32LE (writeU32LE data (y * w * 16 + x * 16) r)
          (y * w * 16 + x * 16 + 4) g) (y * w * 16 + x * 16 + 8) b)
          (y * w * 16 + x * 16 + 12) a⟩ x y =
        some (y * w * 16 + x * 16) := by
      simp only [OutputTexture.base_offset, Format.texel_size]
      rw [if_neg (by omega)]
    have hget : OutputTexture.get ⟨w, h, .RGBAF32,
        writeU32LE (writeU32LE (writeU32LE (writeU32LE data (y * w * 16 + x * 16) r)
          (y * w * 16 + x * 16 + 4) g) (y * w * 16 + x * 16 + 8) b)
          (y * w * 16 + x * 16 + 12) a⟩ ⟨x, y⟩ =
        some (.RGBAF32 r g b a) := by
      unfold OutputTexture.get
      rw [hbo2]
      simp only [Option.some.injEq]
      rw [readU32LE_writeU32LE_lt _ _ _ _ (by omega),
        readU32LE_writeU32LE_lt _ _ _ _ (by omega),
        readU32LE_writeU32LE_lt _ _ _ _ (by omega),
        readU32LE_writeU32LE_self _ _ _ (by omega) hr]
      rw [readU32LE_writeU32LE_lt _ _ _ _ (by omega),
        readU32LE_writeU32LE_lt _ _ _ _ (by omega),
        readU32LE_writeU32LE_self _ _ _
          (by simp only [writeU32LE_length]; omega) hg]
      rw [readU32LE_writeU32LE_lt _ _ _ _ (by omega),
        readU32LE_writeU32LE_self _ _ _
          (by simp only [writeU32LE_length]; omega) hb]
      rw [readU32LE_writeU32LE_self _ _ _
        (by simp only [writeU32LE_length]; omega) ha]
    exact ⟨_, hset, hget⟩

/-- C3: for every `Format`, every well-formed canvas of that format, every
in-range position and every well-formed `Texel` of the matching format,
`set(pos, texel)` succeeds (returns `true`) and a subsequent `get(pos)`
returns exactly the written texel — byte-exact for `L8`, `LA8`, `RGBA8`
and bit-pattern-exact for `F32`, `RGBAF32` (float payloads are modelled
by their 32-bit patterns). -/
theorem claim_C3_set_get_roundtrip (t : OutputTexture) (p : Pos) (tx : Texel)
    (hwf : t.Wf) (hx : p.x < t.width) (hy : p.y < t.height)
    (hfmt : tx.format = t.format) (htx : tx.Wf) :
    ∃ u : OutputTexture, t.set p tx = some (u, true) ∧ u.get p = some tx :=
  set_get_roundtrip t p tx hwf hx hy hfmt htx

/-- Witness for C3 at a concrete input (a 2 by 2 RGBAF32 canvas). -/
theorem claim_C3_witness :
    ∃ u : OutputTexture,
      (OutputTexture.new 2 2 .RGBAF32).set ⟨1, 1⟩ (.RGBAF32 1 2 3 4) = some (u, true) ∧
      u.get ⟨1, 1⟩ = some (.RGBAF32 1 2 3 4) :=
  claim_C3_set_get_roundtrip (OutputTexture.new 2 2 .RGBAF32) ⟨1, 1⟩
    (.RGBAF32 1 2 3 4) (by norm_num [OutputTexture.Wf, OutputTexture.new])
    (by decide) (by decide) (by decide) (by norm_num [Texel.Wf])

/-- C4 (amended: position in range): writing a texel whose format differs
from the canvas format at an in-range position never panics, returns
`false`, and returns the canvas unchanged (every byte identical, since the
result is the very same canvas value). -/
theorem claim_C4_mismatch_returns_false (t : OutputTexture) (p : Pos) (tx : Texel)
    (hx : p.x < t.width) (hy : p.y < t.height) (hfmt : tx.format ≠ t.format) :
    t.set p tx = some (t, false) := by
  obtain ⟨w, h, fmt, data⟩ := t
  obtain ⟨x, y⟩ := p
  simp only at hx hy hfmt ⊢
  have hbo : OutputTexture.base_offset ⟨w, h, fmt, data⟩ x y =
      some (y * w * fmt.texel_size + x * fmt.texel_size) := by
    simp only [OutputTexture.base_offset]
    rw [if_neg (by omega)]
  unfold OutputTexture.set
  rw [hbo]
  cases fmt <;> cases tx <;> first | exact absurd rfl hfmt | rfl

/-- Witness for C4 (amended) at a concrete input. -/
theorem claim_C4_witness :
    (OutputTexture.new 1 1 .L8).set ⟨0, 0⟩ (.LA8 7 7) =
      some (OutputTexture.new 1 1 .L8, false) :=
  claim_C4_mismatch_returns_false (OutputTexture.new 1 1 .L8) ⟨0, 0⟩ (.LA8 7 7)
    (by decide) (by decide) (by decide)

/-- C4 counterexample to the claim as stated (for EVERY position): at the
out-of-range position (1,0) of a 1 by 1 L8 canvas, `set` with a
mismatched-format texel panics (the `expect` in the source fires before
the format check), modelled by `none` — it does not return `false`. -/
theorem claim_C4_counterexample :
    (OutputTexture.new 1 1 .L8).set ⟨1, 0⟩ (.LA8 0 0) = none := by decide

theorem set_some_dims (t u : OutputTexture) (p : Pos) (tx : Texel) (b : Bool)
    (h : t.set p tx = some (u, b)) :
    u.width = t.width ∧ u.height = t.height ∧ u.format = t.format ∧
      u.data.length = t.data.length := by
  unfold OutputTexture.set at h
  split at h
  · simp at h
  · split at h <;>
      (simp only [Option.some.injEq, Prod.mk.injEq] at h
       obtain ⟨h1, h2⟩ := h
       subst h1
       simp [writeU32LE_length, List.length_set])

theorem set_in_range_isSome (t : OutputTexture) (p : Pos) (tx : Texel)
    (hx : p.x < t.width) (hy : p.y < t.height) :
    ∃ out, t.set p tx = some out := by
  obtain ⟨w, h, fmt, data⟩ := t
  obtain ⟨x, y⟩ := p
  simp only at hx hy
  have hbo : OutputTexture.base_offset ⟨w, h, fmt, data⟩ x y =
      some (y * w * fmt.texel_size + x * fmt.texel_size) := by
    simp only [OutputTexture.base_offset]
    rw [if_neg (by omega)]
  unfold OutputTexture.set
  rw [hbo]
  cases fmt <;> cases tx <;> exact ⟨_, rfl⟩

theorem foldl_mergeStep_none (rs : List (Pos × Texel)) :
    rs.foldl mergeStep none = none := by
  induction rs with
  | nil => rfl
  | cons a l ih =>
    rw [List.foldl_cons]
    exact ih

theorem mergeResults_cons (rt : OutputTexture) (r : Pos × Texel)
    (rs : List (Pos × Texel)) :
    mergeResults rt (r :: rs) =
      match rt.set r.1 r.2 with
      | none => none
      | some (rt2, _) => mergeResults rt2 rs := by
  unfold mergeResults
  rw [List.foldl_cons]
  cases hset : rt.set r.1 r.2 with
  | none =>
    have hstep : mergeStep (some rt) r = none := by
      show (match rt.set r.1 r.2 with
        | none => none
        | some (rt2, _) => some rt2) = none
      rw [hset]
    rw [hstep, foldl_mergeStep_none]
  | some out =>
    obtain ⟨rt2, b⟩ := out
    have hstep : mergeStep (some rt) r = some rt2 := by
      show (match rt.set r.1 r.2 with
        | none => none
        | some (rt2, _) => some rt2) = some rt2
      rw [hset]
    rw [hstep]

theorem mergeResults_isSome (rs : List (Pos × Texel)) (rt : OutputTexture)
    (hin : ∀ r ∈ rs, r.1.x < rt.width ∧ r.1.y < rt.height) :
    ∃ u, mergeResults rt rs = some u ∧ u.width = rt.width ∧
      u.height = rt.height ∧ u.format = rt.format ∧
      u.data.length = rt.data.length := by
  induction rs generalizing rt with
  | nil => exact ⟨rt, rfl, rfl, rfl, rfl, rfl⟩
  | cons r rs ih =>
    obtain ⟨hx, hy⟩ := hin r (by simp)
    obtain ⟨⟨rt2, b⟩, hset⟩ := set_in_range_isSome rt r.1 r.2 hx hy
    obtain ⟨hw, hh, hf, hl⟩ := set_some_dims rt rt2 r.1 r.2 b hset
    obtain ⟨u, hm, huw, huh, huf, hul⟩ := ih rt2 (by
      intro q hq
      have := hin q (by simp [hq])
      omega)
    refine ⟨u, ?_, by omega, by omega, by rw [huf, hf], by omega⟩
    rw [mergeResults_cons, hset]
    exact hm

theorem taskResults_mem (w h : Nat) (f : Pos → Texel) (r : Pos × Texel)
    (hr : r ∈ taskResults w h f) :
    r.1.x < w ∧ r.1.y < h ∧ r.2 = f r.1 := by
  unfold taskResults at hr
  simp only [List.mem_flatMap, List.mem_map, List.mem_range] at hr
  obtain ⟨y, hy, x, hx, rfl⟩ := hr
  exact ⟨hx, hy, rfl⟩

theorem buildFuncs_ok {F : Type} (newFn : FrameBuffer → Except FrameBufferError F)
    (fb : FrameBuffer) (f : F) (hf : newFn fb = .ok f) (n : Nat) :
    buildFuncs newFn fb n = .ok (List.replicate n f) := by
  induction n with
  | zero => rfl
  | succ m ih =>
    unfold buildFuncs
    rw [hf, ih]
    rfl

theorem nextPass_pass0 {F : Type} (ap : F → Pos → Texel)
    (newFn : FrameBuffer → Except FrameBufferError F)
    (w h : Nat) (fmt : Format) (nt : Nat) (f : F) (c0 : OutputTexture)
    (hf : newFn ⟨none, w, h, fmt⟩ = .ok f)
    (hmerge : mergeResults (OutputTexture.new w h fmt) (taskResults w h (ap f)) = some c0) :
    nextPass ap newFn ⟨⟨none, none, 0, w, h, fmt, 0⟩, 0, nt + 1, 0, 0⟩ =
      some (.ok (⟨⟨none, some (0, c0), 2, w, h, fmt, 1⟩, 1, nt + 1, 0, 1⟩,
        ⟨0, c0, none, none⟩)) := by
  unfold nextPass
  simp [PipelineSt.acquire, SwapChain.next, PipelineSt.release, SwapChain.put_back,
    finishPass, buildFuncs_ok newFn _ f hf, List.replicate_succ, hmerge]

theorem nextPass_slot0_empty {F : Type} (ap : F → Pos → Texel)
    (newFn : FrameBuffer → Except FrameBufferError F)
    (b : Nat) (cb cm : OutputTexture) (w h : Nat) (fmt : Format)
    (fr kp nt ml : Nat) (hkp : kp ≠ 0) (f : F)
    (hf : newFn ⟨some cb, w, h, fmt⟩ = .ok f)
    (hmerge : mergeResults (OutputTexture.new w h fmt) (taskResults w h (ap f)) = some cm) :
    nextPass ap newFn ⟨⟨none, some (b, cb), 2, w, h, fmt, fr⟩, kp, nt + 1, 0, ml⟩ =
      some (.ok (⟨⟨some (b, cb), some (fr, cm), 2, w, h, fmt, fr + 1⟩, kp + 1, nt + 1, 0,
        max (max ml 1) 2⟩, ⟨fr, cm, some b, some cb⟩)) := by
  unfold nextPass
  simp [PipelineSt.acquire, SwapChain.next, PipelineSt.release, SwapChain.put_back,
    finishPass, buildFuncs_ok newFn _ f hf, List.replicate_succ, hmerge, hkp]

theorem nextPass_inv {F : Type} (ap : F → Pos → Texel)
    (newFn : FrameBuffer → Except FrameBufferError F)
    (a b : Nat) (ca cb cm : OutputTexture) (w h : Nat) (fmt : Format)
    (fr kp nt ml : Nat) (hkp : kp ≠ 0) (f : F)
    (hf : newFn ⟨some cb, w, h, fmt⟩ = .ok f)
    (hmerge : mergeResults ca (taskResults w h (ap f)) = some cm) :
    nextPass ap newFn ⟨⟨some (a, ca), some (b, cb), 2, w, h, fmt, fr⟩, kp, nt + 1, 0, ml⟩ =
      some (.ok (⟨⟨some (b, cb), some (a, cm), 2, w, h, fmt, fr⟩, kp + 1, nt + 1, 0,
        max (max ml 1) 2⟩, ⟨a, cm, some b, some cb⟩)) := by
  unfold nextPass
  simp [PipelineSt.acquire, SwapChain.next, PipelineSt.release, SwapChain.put_back,
    finishPass, buildFuncs_ok newFn _ f hf, List.replicate_succ, hmerge, hkp]

theorem lastRt_cons (b : Nat) (cb : OutputTexture) (r : PassRec) (rs : List PassRec) :
    lastRt b cb (r :: rs) = lastRt r.rtId r.rtCanvas rs := by
  unfold lastRt
  cases hl : rs.getLast? with
  | none =>
    have : rs = [] := by
      cases rs with
      | nil => rfl
      | cons q qs => simp [List.getLast?_cons] at hl
    subst this
    simp [List.getLast?]
  | some q =>
    have : (r :: rs).getLast? = some q := by
      cases rs with
      | nil => simp at hl
      | cons p ps => rw [List.getLast?_cons_cons, hl]
    rw [this]

theorem mergeTasks_isSome (w h : Nat) (fmt : Format) (ca : OutputTexture)
    (f : Pos → Texel) (hw : ca.width = w) (hh : ca.height = h)
    (hf : ca.format = fmt) :
    ∃ cm, mergeResults ca (taskResults w h f) = some cm ∧
      cm.width = w ∧ cm.height = h ∧ cm.format = fmt := by
  obtain ⟨u, hm, h1, h2, h3, _⟩ := mergeResults_isSome (taskResults w h f) ca (by
    intro r hr
    obtain ⟨hx, hy, _⟩ := taskResults_mem w h f r hr
    omega)
  exact ⟨u, hm, by omega, by omega, by rw [h3, hf]⟩

theorem runPipeline_from_inv {F : Type} (ap : F → Pos → Texel)
    (newFns : Nat → FrameBuffer → Except FrameBufferError F)
    (hok : ∀ i fb, ∃ f, newFns i fb = .ok f) :
    ∀ (n a b : Nat) (ca cb : OutputTexture) (w h : Nat) (fmt : Format)
      (fr kp nt ml : Nat), kp ≠ 0 →
      ca.width = w → ca.height = h → ca.format = fmt →
      cb.width = w → cb.height = h → cb.format = fmt →
      ∃ (st2 : PipelineSt) (recs : List PassRec),
        runPipeline ap newFns n
            ⟨⟨some (a, ca), some (b, cb), 2, w, h, fmt, fr⟩, kp, nt + 1, 0, ml⟩ =
          some (.ok (st2, recs)) ∧
        recs.length = n ∧
        Chained b cb recs ∧
        (∀ r ∈ recs, r.rtCanvas.width = w ∧ r.rtCanvas.height = h ∧
          r.rtCanvas.format = fmt) ∧
        (∃ p, st2.sc.slot0 = some p) ∧
        st2.sc.slot1 = some (lastRt b cb recs) ∧
        (lastRt b cb recs).2.width = w ∧ (lastRt b cb recs).2.height = h ∧
        (lastRt b cb recs).2.format = fmt ∧
        st2.sc.index = 2 ∧ st2.sc.width = w ∧ st2.sc.height = h ∧
        st2.sc.format = fmt ∧ st2.sc.fresh = fr ∧
        st2.curPass = kp + n ∧ st2.nthreads = nt + 1 ∧ st2.live = 0 ∧
        st2.maxLive ≤ max ml 2 := by
  intro n
  induction n with
  | zero =>
    intro a b ca cb w h fmt fr kp nt ml hkp hca1 hca2 hca3 hcb1 hcb2 hcb3
    exact ⟨_, [], rfl, rfl, trivial, by simp, ⟨(a, ca), rfl⟩, rfl, hcb1, hcb2, hcb3,
      rfl, rfl, rfl, rfl, rfl, rfl, rfl, rfl, le_sup_left⟩
  | succ m ih =>
    intro a b ca cb w h fmt fr kp nt ml hkp hca1 hca2 hca3 hcb1 hcb2 hcb3
    obtain ⟨f, hf⟩ := hok kp ⟨some cb, w, h, fmt⟩
    obtain ⟨cm, hmerge, hcmw, hcmh, hcmf⟩ :=
      mergeTasks_isSome w h fmt ca (ap f) hca1 hca2 hca3
    have hpass := nextPass_inv ap (newFns kp) a b ca cb cm w h fmt fr kp nt ml hkp f hf hmerge
    obtain ⟨st2, recs, hrun, hlen, hch, hdims, hslot0, hslot1, hlw, hlh, hlf,
      hidx, hscw, hsch, hscf, hfr, hcp, hnt2, hlv, hml⟩ :=
      ih b a cb cm w h fmt fr (kp + 1) nt (max (max ml 1) 2) (by omega) hcb1 hcb2 hcb3 hcmw hcmh hcmf
    refine ⟨st2, ⟨a, cm, some b, some cb⟩ :: recs, ?_, by simp [hlen],
      ⟨rfl, rfl, hch⟩, ?_, hslot0, ?_, ?_, ?_, ?_,
      hidx, hscw, hsch, hscf, hfr, by omega, hnt2, hlv, by omega⟩
    · simp only [runPipeline]
      rw [hpass]
      simp only [hrun]
    · intro r hr
      rcases List.mem_cons.mp hr with hr | hr
      · subst hr
        exact ⟨hcmw, hcmh, hcmf⟩
      · exact hdims r hr
    · rw [lastRt_cons]
      exact hslot1
    · rw [lastRt_cons]
      exact hlw
    · rw [lastRt_cons]
      exact hlh
    · rw [lastRt_cons]
      exact hlf

theorem finishRun_of_full (st : PipelineSt) (p q : Nat × OutputTexture)
    (h0 : st.sc.slot0 = some p) (h1 : st.sc.slot1 = some q) (hi : st.sc.index = 2)
    (hl : st.live = 0) :
    (finishRun st).1 = q ∧ (finishRun st).2.sc.fresh = st.sc.fresh ∧
      (finishRun st).2.maxLive ≤ max st.maxLive 2 := by
  obtain ⟨⟨s0, s1, idx, w, h, fmt, fr⟩, cp, nt, lv, ml⟩ := st
  simp only at h0 h1 hi hl
  subst h0 h1 hi hl
  refine ⟨?_, ?_, ?_⟩ <;>
    simp [finishRun, PipelineSt.acquire, SwapChain.next] <;> omega

theorem finishRun_of_slot0_none (st : PipelineSt) (q : Nat × OutputTexture)
    (h0 : st.sc.slot0 = none) (h1 : st.sc.slot1 = some q) (hi : st.sc.index = 2)
    (hl : st.live = 0) :
    (finishRun st).1 = q ∧ (finishRun st).2.sc.fresh = st.sc.fresh + 1 ∧
      (finishRun st).2.maxLive ≤ max st.maxLive 2 := by
  obtain ⟨⟨s0, s1, idx, w, h, fmt, fr⟩, cp, nt, lv, ml⟩ := st
  simp only at h0 h1 hi hl
  subst h0 h1 hi hl
  refine ⟨?_, ?_, ?_⟩ <;>
    simp [finishRun, PipelineSt.acquire, SwapChain.next] <;> omega

theorem runPipeline_full {F : Type} (ap : F → Pos → Texel)
    (newFns : Nat → FrameBuffer → Except FrameBufferError F)
    (hok : ∀ i fb, ∃ f, newFns i fb = .ok f) (w h : Nat) (fmt : Format)
    (nt n : Nat) :
    ∃ (st2 : PipelineSt) (recs : List PassRec),
      runPipeline ap newFns (n + 1) ⟨⟨none, none, 0, w, h, fmt, 0⟩, 0, nt + 1, 0, 0⟩ =
        some (.ok (st2, recs)) ∧
      recs.length = n + 1 ∧
      TraceOk recs ∧
      (∀ r ∈ recs, r.rtCanvas.width = w ∧ r.rtCanvas.height = h ∧
        r.rtCanvas.format = fmt) ∧
      (∃ last, recs.getLast? = some last ∧
        st2.sc.slot1 = some (last.rtId, last.rtCanvas)) ∧
      ((st2.sc.slot0 = none ∧ st2.sc.fresh = 1) ∨
        ((∃ p, st2.sc.slot0 = some p) ∧ st2.sc.fresh = 2)) ∧
      st2.sc.index = 2 ∧ st2.sc.width = w ∧ st2.sc.height = h ∧
      st2.sc.format = fmt ∧ st2.curPass = n + 1 ∧ st2.live = 0 ∧
      st2.maxLive ≤ 2 := by
  obtain ⟨f0, hf0⟩ := hok 0 ⟨none, w, h, fmt⟩
  obtain ⟨c0, hm0, hc0w, hc0h, hc0f⟩ :=
    mergeTasks_isSome w h fmt (OutputTexture.new w h fmt) (ap f0) rfl rfl rfl
  have hp0 := nextPass_pass0 ap (newFns 0) w h fmt nt f0 c0 hf0 hm0
  cases n with
  | zero =>
    refine ⟨⟨⟨none, some (0, c0), 2, w, h, fmt, 1⟩, 1, nt + 1, 0, 1⟩,
      [⟨0, c0, none, none⟩], ?_, rfl, ⟨rfl, rfl, trivial⟩, ?_, ?_, ?_, rfl, rfl,
      rfl, rfl, rfl, rfl, by show (1 : Nat) ≤ 2; omega⟩
    · simp only [runPipeline]
      rw [hp0]
    · intro r hr
      simp only [List.mem_singleton] at hr
      subst hr
      exact ⟨hc0w, hc0h, hc0f⟩
    · exact ⟨⟨0, c0, none, none⟩, rfl, rfl⟩
    · exact Or.inl ⟨rfl, rfl⟩
  | succ m =>
    obtain ⟨f1, hf1⟩ := hok 1 ⟨some c0, w, h, fmt⟩
    obtain ⟨c1, hm1, hc1w, hc1h, hc1f⟩ :=
      mergeTasks_isSome w h fmt (OutputTexture.new w h fmt) (ap f1) rfl rfl rfl
    have hp1 := nextPass_slot0_empty ap (newFns 1) 0 c0 c1 w h fmt 1 1 nt 1
      (by omega) f1 hf1 hm1
    obtain ⟨st2, recs, hrun, hlen, hch, hdims, hslot0, hslot1, hlw, hlh, hlf,
      hidx, hscw, hsch, hscf, hfr, hcp, hnt2, hlv, hml⟩ :=
      runPipeline_from_inv ap newFns hok m 0 1 c0 c1 w h fmt (1 + 1) (1 + 1) nt
        (max (max 1 1) 2) (by omega) hc0w hc0h hc0f hc1w hc1h hc1f
    refine ⟨st2, ⟨0, c0, none, none⟩ :: ⟨1, c1, some 0, some c0⟩ :: recs,
      ?_, by simp [hlen], ⟨rfl, rfl, rfl, rfl, hch⟩, ?_, ?_, ?_,
      hidx, hscw, hsch, hscf, by omega, hlv, by omega⟩
    · simp only [runPipeline]
      rw [hp0]
      simp only [runPipeline]
      rw [hp1]
      simp only [hrun]
    · intro r hr
      rcases List.mem_cons.mp hr with hr | hr
      · subst hr
        exact ⟨hc0w, hc0h, hc0f⟩
      rcases List.mem_cons.mp hr with hr | hr
      · subst hr
        exact ⟨hc1w, hc1h, hc1f⟩
      · exact hdims r hr
    · cases hg : recs.getLast? with
      | none =>
        have hnil : recs = [] := List.getLast?_eq_none_iff.mp hg
        subst hnil
        exact ⟨⟨1, c1, some 0, some c0⟩, rfl, hslot1⟩
      | some rr =>
        refine ⟨rr, ?_, ?_⟩
        · rw [List.getLast?_cons_cons]
          cases recs with
          | nil => simp at hg
          | cons r rs =>
            rw [List.getLast?_cons_cons]
            exact hg
        · rw [hslot1]
          unfold lastRt
          rw [hg]
    · exact Or.inr ⟨hslot0, by omega⟩

theorem chained_get_succ : ∀ (rs : List PassRec) (b : Nat) (cb : OutputTexture),
    Chained b cb rs → ∀ (i : Nat) (hi : i + 1 < rs.length),
      (rs.get ⟨i + 1, hi⟩).prevId = some ((rs.get ⟨i, by omega⟩).rtId) ∧
      (rs.get ⟨i + 1, hi⟩).prevCanvas = some ((rs.get ⟨i, by omega⟩).rtCanvas)
  | [], _, _, _, i, hi => by simp at hi
  | r :: rs, b, cb, hch, i, hi => by
    obtain ⟨h1, h2, hch2⟩ := hch
    cases i with
    | zero =>
      cases rs with
      | nil => simp at hi
      | cons r2 rs2 =>
        obtain ⟨g1, g2, _⟩ := hch2
        exact ⟨g1, g2⟩
    | succ j =>
      have hj : j + 1 < rs.length := by
        simpa using Nat.lt_of_succ_lt_succ hi
      exact chained_get_succ rs r.rtId r.rtCanvas hch2 j hj

theorem chained_prevId_ne_none : ∀ (rs : List PassRec) (b : Nat)
    (cb : OutputTexture), Chained b cb rs →
    ∀ (i : Nat) (hi : i < rs.length), (rs.get ⟨i, hi⟩).prevId ≠ none
  | [], _, _, _, i, hi => by simp at hi
  | r :: rs, b, cb, hch, i, hi => by
    obtain ⟨h1, _, hch2⟩ := hch
    cases i with
    | zero => simp [List.get, h1]
    | succ j =>
      have hj : j < rs.length := by simpa using Nat.lt_of_succ_lt_succ hi
      exact chained_prevId_ne_none rs r.rtId r.rtCanvas hch2 j hj

theorem traceOk_prevId_none_iff (rs : List PassRec) (ht : TraceOk rs)
    (i : Nat) (hi : i < rs.length) :
    ((rs.get ⟨i, hi⟩).prevId = none ∧ (rs.get ⟨i, hi⟩).prevCanvas = none) ↔
      i = 0 := by
  cases rs with
  | nil => simp at hi
  | cons r rs2 =>
    obtain ⟨h1, h2, hch⟩ := ht
    cases i with
    | zero => exact ⟨fun _ => rfl, fun _ => ⟨h1, h2⟩⟩
    | succ j =>
      constructor
      · intro hcontra
        have hj : j < rs2.length := by simpa using Nat.lt_of_succ_lt_succ hi
        exact absurd hcontra.1 (chained_prevId_ne_none rs2 r.rtId r.rtCanvas hch j hj)
      · intro hcontra
        exact absurd hcontra (by omega)

theorem traceOk_get_succ (rs : List PassRec) (ht : TraceOk rs)
    (i : Nat) (hi : i + 1 < rs.length) :
    (rs.get ⟨i + 1, hi⟩).prevId = some ((rs.get ⟨i, by omega⟩).rtId) ∧
    (rs.get ⟨i + 1, hi⟩).prevCanvas = some ((rs.get ⟨i, by omega⟩).rtCanvas) := by
  cases rs with
  | nil => simp at hi
  | cons r rs2 =>
    obtain ⟨h1, h2, hch⟩ := ht
    cases i with
    | zero =>
      cases rs2 with
      | nil => simp at hi
      | cons r2 rs3 =>
        obtain ⟨g1, g2, _⟩ := hch
        exact ⟨g1, g2⟩
    | succ j =>
      have hj : j + 1 < rs2.length := by simpa using Nat.lt_of_succ_lt_succ hi
      exact chained_get_succ rs2 r.rtId r.rtCanvas hch j hj

/-- C1: for every pipeline run of `n ≥ 1` passes (worker count ≥ 1,
filters whose `new_function` succeeds), the run completes, at most two
canvases are ever live (acquired from the swap chain but not yet
released) at any time — including during `finish()` — `finish()` drains
the pool and returns the render target produced by the last pass (the
second canvas drained; the first is discarded), and in total at most two
buffers are ever allocated (no third buffer). -/
theorem claim_C1_swapchain_liveness {F : Type} (ap : F → Pos → Texel)
    (newFns : Nat → FrameBuffer → Except FrameBufferError F)
    (w h : Nat) (fmt : Format) (nthreads n : Nat)
    (hn : 1 ≤ n) (hnt : 1 ≤ nthreads)
    (hok : ∀ i fb, ∃ f, newFns i fb = .ok f) :
    ∃ (st2 : PipelineSt) (recs : List PassRec) (last : PassRec),
      runPipeline ap newFns n (initPipeline w h fmt nthreads) =
        some (.ok (st2, recs)) ∧
      recs.length = n ∧
      recs.getLast? = some last ∧
      (finishRun st2).1 = (last.rtId, last.rtCanvas) ∧
      (finishRun st2).2.maxLive ≤ 2 ∧
      (finishRun st2).2.sc.fresh ≤ 2 := by
  obtain ⟨m, rfl⟩ : ∃ m, n = m + 1 := ⟨n - 1, by omega⟩
  obtain ⟨nt2, rfl⟩ : ∃ nt2, nthreads = nt2 + 1 := ⟨nthreads - 1, by omega⟩
  obtain ⟨st2, recs, hrun, hlen, htr, hdims, ⟨last, hgl, hslot1⟩, hdisj,
    hidx, hscw, hsch, hscf, hcp, hlv, hml⟩ :=
    runPipeline_full ap newFns hok (if isPow2 w then w else nextPow2 w)
      (if isPow2 h then h else nextPow2 h) fmt nt2 m
  refine ⟨st2, recs, last, hrun, hlen, hgl, ?_⟩
  rcases hdisj with ⟨hs0, hfr⟩ | ⟨⟨p, hs0⟩, hfr⟩
  · obtain ⟨hq, hfr2, hml2⟩ :=
      finishRun_of_slot0_none st2 (last.rtId, last.rtCanvas) hs0 hslot1 hidx hlv
    exact ⟨hq, by omega, by omega⟩
  · obtain ⟨hq, hfr2, hml2⟩ :=
      finishRun_of_full st2 p (last.rtId, last.rtCanvas) hs0 hslot1 hidx hlv
    exact ⟨hq, by omega, by omega⟩

/-- Witness for C1: a concrete 2-pass run on a 1 by 1 L8 canvas with one
worker and constant filters. -/
theorem claim_C1_witness :
    ∃ (st2 : PipelineSt) (recs : List PassRec) (last : PassRec),
      runPipeline (fun f => f) (fun _ _ => .ok (fun _ => Texel.L8 0)) 2
          (initPipeline 1 1 .L8 1) = some (.ok (st2, recs)) ∧
      recs.length = 2 ∧
      recs.getLast? = some last ∧
      (finishRun st2).1 = (last.rtId, last.rtCanvas) ∧
      (finishRun st2).2.maxLive ≤ 2 ∧
      (finishRun st2).2.sc.fresh ≤ 2 :=
  claim_C1_swapchain_liveness (fun f => f) (fun _ _ => .ok (fun _ => Texel.L8 0))
    1 1 .L8 1 2 (by omega) (by omega) (fun _ _ => ⟨_, rfl⟩)

/-- C2: in every run, the frame buffer handed to pass 0's filter carries
no previous canvas, and for every `i > 0` the frame buffer of pass `i`
carries exactly the render target produced by pass `i - 1` (same ghost
id and same canvas contents); moreover a filter that requires pass
history (greyscale) returns `MissingPrevious` when given a frame buffer
without a previous canvas, as happens at pass 0. -/
theorem claim_C2_previous_wiring {F : Type} (ap : F → Pos → Texel)
    (newFns : Nat → FrameBuffer → Except FrameBufferError F)
    (w h : Nat) (fmt : Format) (nthreads n : Nat)
    (hn : 1 ≤ n) (hnt : 1 ≤ nthreads)
    (hok : ∀ i fb, ∃ f, newFns i fb = .ok f) :
    (∃ (st2 : PipelineSt) (recs : List PassRec),
      runPipeline ap newFns n (initPipeline w h fmt nthreads) =
        some (.ok (st2, recs)) ∧
      recs.length = n ∧
      (∀ (i : Nat) (hi : i < recs.length),
        (((recs.get ⟨i, hi⟩).prevId = none ∧
          (recs.get ⟨i, hi⟩).prevCanvas = none) ↔ i = 0)) ∧
      (∀ (i : Nat) (hi : i + 1 < recs.length),
        (recs.get ⟨i + 1, hi⟩).prevId = some ((recs.get ⟨i, by omega⟩).rtId) ∧
        (recs.get ⟨i + 1, hi⟩).prevCanvas =
          some ((recs.get ⟨i, by omega⟩).rtCanvas))) ∧
    (∀ (g : Greyscale) (fb : FrameBuffer), fb.previous = none →
      g.new_function fb = .error .MissingPrevious) := by
  constructor
  · obtain ⟨m, rfl⟩ : ∃ m, n = m + 1 := ⟨n - 1, by omega⟩
    obtain ⟨nt2, rfl⟩ : ∃ nt2, nthreads = nt2 + 1 := ⟨nthreads - 1, by omega⟩
    obtain ⟨st2, recs, hrun, hlen, htr, _⟩ :=
      runPipeline_full ap newFns hok (if isPow2 w then w else nextPow2 w)
        (if isPow2 h then h else nextPow2 h) fmt nt2 m
    exact ⟨st2, recs, hrun, hlen,
      fun i hi => traceOk_prevId_none_iff recs htr i hi,
      fun i hi => traceOk_get_succ recs htr i hi⟩
  · intro g fb hprev
    unfold Greyscale.new_function
    rw [hprev]

/-- Witness for C2 at the same concrete run, plus greyscale at pass 0. -/
theorem claim_C2_witness :
    (∃ (st2 : PipelineSt) (recs : List PassRec),
      runPipeline (fun f => f) (fun _ _ => .ok (fun _ => Texel.L8 0)) 2
          (initPipeline 1 1 .L8 1) = some (.ok (st2, recs)) ∧
      recs.length = 2 ∧
      (∀ (i : Nat) (hi : i < recs.length),
        (((recs.get ⟨i, hi⟩).prevId = none ∧
          (recs.get ⟨i, hi⟩).prevCanvas = none) ↔ i = 0)) ∧
      (∀ (i : Nat) (hi : i + 1 < recs.length),
        (recs.get ⟨i + 1, hi⟩).prevId = some ((recs.get ⟨i, by omega⟩).rtId) ∧
        (recs.get ⟨i + 1, hi⟩).prevCanvas =
          some ((recs.get ⟨i, by omega⟩).rtCanvas))) ∧
    (∀ (g : Greyscale) (fb : FrameBuffer), fb.previous = none →
      g.new_function fb = .error .MissingPrevious) :=
  claim_C2_previous_wiring (fun f => f) (fun _ _ => .ok (fun _ => Texel.L8 0))
    1 1 .L8 1 2 (by omega) (by omega) (fun _ _ => ⟨_, rfl⟩)

theorem nextPow2_is_pow (n : Nat) : ∃ k, nextPow2 n = 2 ^ k := by
  induction n using Nat.strong_induction_on with
  | _ n ih =>
    unfold nextPow2
    split
    · exact ⟨0, rfl⟩
    · rename_i hn
      obtain ⟨k, hk⟩ := ih ((n + 1) / 2) (by omega)
      exact ⟨k + 1, by rw [hk]; ring⟩

theorem le_nextPow2 (n : Nat) : n ≤ nextPow2 n := by
  induction n using Nat.strong_induction_on with
  | _ n ih =>
    unfold nextPow2
    split
    · omega
    · rename_i hn
      have := ih ((n + 1) / 2) (by omega)
      omega

theorem nextPow2_le_pow (n : Nat) : ∀ j, n ≤ 2 ^ j → nextPow2 n ≤ 2 ^ j := by
  induction n using Nat.strong_induction_on with
  | _ n ih =>
    intro j hj
    unfold nextPow2
    split
    · exact Nat.one_le_two_pow
    · rename_i hn
      cases j with
      | zero => simp at hj; omega
      | succ j2 =>
        have hpow : (2 : Nat) ^ (j2 + 1) = 2 * 2 ^ j2 := by ring
        have h1 : (n + 1) / 2 ≤ 2 ^ j2 := by omega
        have h2 := ih ((n + 1) / 2) (by omega) j2 h1
        omega

theorem isPow2_iff (n : Nat) : isPow2 n = true ↔ ∃ k, n = 2 ^ k := by
  induction n using Nat.strong_induction_on with
  | _ n ih =>
    match n with
    | 0 =>
      simp only [isPow2]
      constructor
      · intro hc
        exact absurd hc (by simp)
      · intro ⟨k, hk⟩
        have := Nat.pos_pow_of_pos k (show 0 < 2 by omega)
        omega
    | 1 =>
      simp only [isPow2]
      exact ⟨fun _ => ⟨0, rfl⟩, fun _ => by simp⟩
    | (m + 2) =>
      rw [isPow2]
      constructor
      · intro hc
        simp only [Bool.and_eq_true, decide_eq_true_eq] at hc
        obtain ⟨hmod, hrec⟩ := hc
        obtain ⟨k, hk⟩ := (ih ((m + 2) / 2) (by omega)).mp hrec
        exact ⟨k + 1, by rw [pow_succ]; omega⟩
      · intro ⟨k, hk⟩
        cases k with
        | zero => omega
        | succ k2 =>
          simp only [Bool.and_eq_true, decide_eq_true_eq]
          rw [pow_succ] at hk
          constructor
          · omega
          · exact (ih ((m + 2) / 2) (by omega)).mpr ⟨k2, by omega⟩

theorem rounded_dim_spec (w : Nat) :
    (∃ k, (if isPow2 w then w else nextPow2 w) = 2 ^ k) ∧
    w ≤ (if isPow2 w then w else nextPow2 w) ∧
    (∀ j, w ≤ 2 ^ j → (if isPow2 w then w else nextPow2 w) ≤ 2 ^ j) := by
  by_cases hp : isPow2 w = true
  · rw [if_pos hp]
    exact ⟨(isPow2_iff w).mp hp, Nat.le_refl w, fun j hj => hj⟩
  · rw [if_neg hp]
    exact ⟨nextPow2_is_pow w, le_nextPow2 w, fun j hj => nextPow2_le_pow w j hj⟩

/-- C5: the swap chain created for a run rounds each requested dimension
up to the smallest power of two that is at least the request (leaving
powers of two unchanged — the result is a power of two, is at least the
request, and is minimal among such powers of two), keeps the requested
format, and every canvas produced during the run has exactly those
dimensions and that format. -/
theorem claim_C5_pow2_dimensions {F : Type} (ap : F → Pos → Texel)
    (newFns : Nat → FrameBuffer → Except FrameBufferError F)
    (w h : Nat) (fmt : Format) (nthreads n : Nat)
    (hn : 1 ≤ n) (hnt : 1 ≤ nthreads)
    (hok : ∀ i fb, ∃ f, newFns i fb = .ok f) :
    (∃ k, (SwapChain.new w h fmt).width = 2 ^ k) ∧
    w ≤ (SwapChain.new w h fmt).width ∧
    (∀ j, w ≤ 2 ^ j → (SwapChain.new w h fmt).width ≤ 2 ^ j) ∧
    (∃ k, (SwapChain.new w h fmt).height = 2 ^ k) ∧
    h ≤ (SwapChain.new w h fmt).height ∧
    (∀ j, h ≤ 2 ^ j → (SwapChain.new w h fmt).height ≤ 2 ^ j) ∧
    (SwapChain.new w h fmt).format = fmt ∧
    (∃ (st2 : PipelineSt) (recs : List PassRec),
      runPipeline ap newFns n (initPipeline w h fmt nthreads) =
        some (.ok (st2, recs)) ∧
      recs.length = n ∧
      ∀ r ∈ recs, r.rtCanvas.width = (SwapChain.new w h fmt).width ∧
        r.rtCanvas.height = (SwapChain.new w h fmt).height ∧
        r.rtCanvas.format = fmt) := by
  obtain ⟨hwp, hwge, hwmin⟩ := rounded_dim_spec w
  obtain ⟨hhp, hhge, hhmin⟩ := rounded_dim_spec h
  refine ⟨hwp, hwge, hwmin, hhp, hhge, hhmin, rfl, ?_⟩
  obtain ⟨m, rfl⟩ : ∃ m, n = m + 1 := ⟨n - 1, by omega⟩
  obtain ⟨nt2, rfl⟩ : ∃ nt2, nthreads = nt2 + 1 := ⟨nthreads - 1, by omega⟩
  obtain ⟨st2, recs, hrun, hlen, _, hdims, _⟩ :=
    runPipeline_full ap newFns hok (if isPow2 w then w else nextPow2 w)
      (if isPow2 h then h else nextPow2 h) fmt nt2 m
  exact ⟨st2, recs, hrun, hlen, fun r hr => hdims r hr⟩

/-- Witness for C5 at a concrete request (width 3, height 5 round to 4
and 8). -/
theorem claim_C5_witness :
    (∃ k, (SwapChain.new 3 5 .RGBA8).width = 2 ^ k) ∧
    3 ≤ (SwapChain.new 3 5 .RGBA8).width ∧
    (∀ j, 3 ≤ 2 ^ j → (SwapChain.new 3 5 .RGBA8).width ≤ 2 ^ j) ∧
    (∃ k, (SwapChain.new 3 5 .RGBA8).height = 2 ^ k) ∧
    5 ≤ (SwapChain.new 3 5 .RGBA8).height ∧
    (∀ j, 5 ≤ 2 ^ j → (SwapChain.new 3 5 .RGBA8).height ≤ 2 ^ j) ∧
    (SwapChain.new 3 5 .RGBA8).format = .RGBA8 ∧
    (∃ (st2 : PipelineSt) (recs : List PassRec),
      runPipeline (fun f => f) (fun _ _ => .ok (fun _ => Texel.RGBA8 1 2 3 4)) 1
          (initPipeline 3 5 .RGBA8 1) = some (.ok (st2, recs)) ∧
      recs.length = 1 ∧
      ∀ r ∈ recs, r.rtCanvas.width = (SwapChain.new 3 5 .RGBA8).width ∧
        r.rtCanvas.height = (SwapChain.new 3 5 .RGBA8).height ∧
        r.rtCanvas.format = .RGBA8) :=
  claim_C5_pow2_dimensions (fun f => f)
    (fun _ _ => .ok (fun _ => Texel.RGBA8 1 2 3 4))
    3 5 .RGBA8 1 1 (by omega) (by omega) (fun _ _ => ⟨_, rfl⟩)

/-- C10: every position submitted by the scheduler's row-major double
loop satisfies `x < width` and `y < height`, so merging all task results
onto a render target of the chain's dimensions never reaches the
out-of-range panic inside `set` (the merge succeeds); by contrast `get`
at an out-of-range position returns `none` rather than panicking. -/
theorem claim_C10_merge_in_bounds (w h : Nat) (f : Pos → Texel)
    (rt : OutputTexture) (hw : rt.width = w) (hh : rt.height = h) :
    (∀ r ∈ taskResults w h f, r.1.x < w ∧ r.1.y < h) ∧
    (∃ u, mergeResults rt (taskResults w h f) = some u) ∧
    (∀ (t : OutputTexture) (p : Pos) (tx : Texel),
      t.width ≤ p.x ∨ t.height ≤ p.y → t.get p = none ∧ t.set p tx = none) := by
  refine ⟨?_, ?_, ?_⟩
  · intro r hr
    obtain ⟨hx, hy, _⟩ := taskResults_mem w h f r hr
    exact ⟨hx, hy⟩
  · obtain ⟨u, hm, _⟩ := mergeResults_isSome (taskResults w h f) rt (by
      intro r hr
      obtain ⟨hx, hy, _⟩ := taskResults_mem w h f r hr
      omega)
    exact ⟨u, hm⟩
  · intro t p tx hout
    have hbo : t.base_offset p.x p.y = none := by
      unfold OutputTexture.base_offset
      rw [if_pos hout]
    constructor
    · unfold OutputTexture.get
      rw [hbo]
    · unfold OutputTexture.set
      rw [hbo]

/-- Witness for C10 on a concrete 2 by 2 canvas. -/
theorem claim_C10_witness :
    (∀ r ∈ taskResults 2 2 (fun _ => Texel.L8 9), r.1.x < 2 ∧ r.1.y < 2) ∧
    (∃ u, mergeResults (OutputTexture.new 2 2 .L8)
      (taskResults 2 2 (fun _ => Texel.L8 9)) = some u) ∧
    (∀ (t : OutputTexture) (p : Pos) (tx : Texel),
      t.width ≤ p.x ∨ t.height ≤ p.y → t.get p = none ∧ t.set p tx = none) :=
  claim_C10_merge_in_bounds 2 2 (fun _ => Texel.L8 9)
    (OutputTexture.new 2 2 .L8) rfl rfl

theorem negotiateLoop_spec : ∀ (fs : List FilterDecl) (w h : Option Nat)
    (fo : Option Format),
    negotiateLoop fs w h fo =
      (w.or ((fs.findSome? FilterDecl.texture_size).map Prod.fst),
       h.or ((fs.findSome? FilterDecl.texture_size).map Prod.snd),
       fo.or (fs.findSome? FilterDecl.texture_format)) := by
  intro fs
  induction fs with
  | nil =>
    intro w h fo
    simp [negotiateLoop]
  | cons fl rest ih =>
    intro w h fo
    simp only [negotiateLoop]
    rw [ih]
    cases w <;> cases h <;> cases fo <;>
      cases hs : fl.texture_size <;> cases hf : fl.texture_format <;>
        simp [List.findSome?_cons, hs, hf, Option.or]

/-- C6: the negotiated width, height and format are, independently for
each of the three: the caller's value when specified; otherwise the
first non-none filter declaration (`get_texture_size` for width/height,
`get_texture_format` for format) in declaration order; otherwise the
defaults 256, 256 and RGBA8. Caller-specified values are never
overridden. -/
theorem claim_C6_negotiation (filters : List FilterDecl) (w h : Option Nat)
    (fo : Option Format) :
    negotiate filters w h fo =
      ((w.or ((filters.findSome? FilterDecl.texture_size).map Prod.fst)).getD
          DEFAULT_WIDTH,
       (h.or ((filters.findSome? FilterDecl.texture_size).map Prod.snd)).getD
          DEFAULT_HEIGHT,
       (fo.or (filters.findSome? FilterDecl.texture_format)).getD .RGBA8) := by
  cases w <;> cases h <;> cases fo <;>
    simp [negotiate, negotiateLoop_spec, Option.or]

theorem buildFuncs_error {F : Type} (newFn : FrameBuffer → Except FrameBufferError F)
    (fb : FrameBuffer) (e : FrameBufferError) (h : newFn fb = .error e)
    (n : Nat) (hn : 1 ≤ n) : buildFuncs newFn fb n = .error e := by
  obtain ⟨m, rfl⟩ : ∃ m, n = m + 1 := ⟨n - 1, by omega⟩
  unfold buildFuncs
  rw [h]

theorem greyscale_rgbaf32_fb (g : Greyscale) (cb : OutputTexture) (w h : Nat) :
    g.new_function ⟨some cb, w, h, .RGBAF32⟩ = .error .UnsupportedFormat := by
  simp [Greyscale.new_function]

theorem next_chain_dims (sc : SwapChain) :
    sc.next.2.width = sc.width ∧ sc.next.2.height = sc.height ∧
      sc.next.2.format = sc.format := by
  unfold SwapChain.next
  dsimp only
  split <;> simp

theorem acquire_chain_dims (st : PipelineSt) :
    st.acquire.2.sc.width = st.sc.width ∧
      st.acquire.2.sc.height = st.sc.height ∧
      st.acquire.2.sc.format = st.sc.format :=
  next_chain_dims st.sc

theorem nextPass_newFn_error {F : Type} (ap : F → Pos → Texel)
    (newFn : FrameBuffer → Except FrameBufferError F) (st : PipelineSt)
    (e : FrameBufferError)
    (hfail : ∀ cb w h, newFn ⟨some cb, w, h, st.sc.format⟩ = .error e)
    (hcp : st.curPass ≠ 0) (hnt : 1 ≤ st.nthreads) :
    nextPass ap newFn st = some (.error e) ∧
      nextPassTasks newFn st = 0 := by
  obtain ⟨⟨rt1, st1⟩, hacq1⟩ : ∃ p, st.acquire = p := ⟨_, rfl⟩
  obtain ⟨⟨p2, st2⟩, hacq2⟩ : ∃ p, st1.acquire = p := ⟨_, rfl⟩
  have hfmt1 : st1.sc.format = st.sc.format := by
    have h1 := (acquire_chain_dims st).2.2
    rw [hacq1] at h1
    exact h1
  have hfmt2 : st2.sc.format = st.sc.format := by
    have h2 := (acquire_chain_dims st1).2.2
    rw [hacq2] at h2
    exact h2.trans hfmt1
  obtain ⟨m, hm⟩ : ∃ m, st.nthreads = m + 1 := ⟨st.nthreads - 1, by omega⟩
  have hbf : buildFuncs newFn
      ⟨some p2.2, st2.sc.width, st2.sc.height, st2.sc.format⟩ st.nthreads =
      .error e := by
    rw [hm]
    refine buildFuncs_error newFn _ e ?hn (m + 1) (by omega)
    rw [hfmt2]
    exact hfail p2.2 _ _
  constructor
  · unfold nextPass
    rw [hacq1]
    dsimp only
    rw [if_neg hcp, hacq2]
    dsimp only
    simp only [Option.map_some']
    rw [hbf]
  · unfold nextPassTasks
    rw [hacq1]
    dsimp only
    rw [if_neg hcp, hacq2]
    dsimp only
    simp only [Option.map_some']
    rw [hbf]

/-- C8 (amended: the error is `UnsupportedFormat`, not
`UnsupportedPreviousFormat`): in every pipeline state whose swap chain
carries format RGBAF32 — no assumption on the slots, so in particular in
the canonical post-pass-0 state in which slot 0 is empty and slot 1
holds pass 0's render target — a greyscale pass scheduled at any index
`> 0` receives a previous canvas of the chain format RGBAF32, its
frame buffer has the same RGBAF32 format, and `new_function` fails with
`UnsupportedFormat` (its frame-buffer format check precedes its
previous-format check); the pass aborts with zero pixel tasks submitted,
and the error is surfaced to the caller of the run loop. -/
theorem claim_C8_greyscale_rgbaf32
    (g : Greyscale) (st : PipelineSt)
    (hfmt : st.sc.format = .RGBAF32)
    (hcp : st.curPass ≠ 0) (hnt : 1 ≤ st.nthreads) :
    (∀ ap : GreyscaleFunc → Pos → Texel,
      nextPass ap (g.new_function) st = some (.error .UnsupportedFormat)) ∧
    nextPassTasks (g.new_function) st = 0 ∧
    (∀ (ap : GreyscaleFunc → Pos → Texel) (n : Nat),
      runPipeline ap (fun _ => g.new_function) (n + 1) st =
        some (.error .UnsupportedFormat)) ∧
    FrameBufferError.UnsupportedFormat ≠ .UnsupportedPreviousFormat := by
  have hkey : ∀ ap : GreyscaleFunc → Pos → Texel,
      nextPass ap (g.new_function) st = some (.error .UnsupportedFormat) ∧
        nextPassTasks (g.new_function) st = 0 := fun ap =>
    nextPass_newFn_error ap (g.new_function) st .UnsupportedFormat
      (fun cb w h => by rw [hfmt]; exact greyscale_rgbaf32_fb g cb w h)
      hcp hnt
  refine ⟨fun ap => (hkey ap).1, (hkey (fun _ _ => .L8 0)).2, ?run, by simp⟩
  intro ap n
  simp only [runPipeline]
  rw [(hkey ap).1]

/-- Witness for C8 at the canonical reachable state for a greyscale
second pass: slot 0 empty, slot 1 holding pass 0's render target, index
2, one fresh allocation so far, `curPass = 1`, one worker — the state a
1×1 RGBAF32 run is in right after pass 0. -/
theorem claim_C8_witness :
    (∀ ap : GreyscaleFunc → Pos → Texel,
      nextPass ap ((Greyscale.mk false).new_function)
        ⟨⟨none, some (0, OutputTexture.new 1 1 .RGBAF32), 2, 1, 1,
          .RGBAF32, 1⟩, 1, 1, 0, 1⟩ = some (.error .UnsupportedFormat)) ∧
    nextPassTasks ((Greyscale.mk false).new_function)
        ⟨⟨none, some (0, OutputTexture.new 1 1 .RGBAF32), 2, 1, 1,
          .RGBAF32, 1⟩, 1, 1, 0, 1⟩ = 0 ∧
    (∀ (ap : GreyscaleFunc → Pos → Texel) (n : Nat),
      runPipeline ap (fun _ => (Greyscale.mk false).new_function) (n + 1)
        ⟨⟨none, some (0, OutputTexture.new 1 1 .RGBAF32), 2, 1, 1,
          .RGBAF32, 1⟩, 1, 1, 0, 1⟩ = some (.error .UnsupportedFormat)) ∧
    FrameBufferError.UnsupportedFormat ≠ .UnsupportedPreviousFormat :=
  claim_C8_greyscale_rgbaf32 (Greyscale.mk false)
    ⟨⟨none, some (0, OutputTexture.new 1 1 .RGBAF32), 2, 1, 1,
      .RGBAF32, 1⟩, 1, 1, 0, 1⟩
    rfl (by exact one_ne_zero) (by exact le_refl 1)

/-- C8 counterexample to the claim as stated: at the frame buffer a
pipeline actually constructs for a greyscale pass over an RGBAF32
previous canvas (frame buffer format equals the chain format RGBAF32),
`new_function` returns `UnsupportedFormat`, not the claimed
`UnsupportedPreviousFormat`. -/
theorem claim_C8_counterexample :
    Greyscale.new_function ⟨false⟩
        ⟨some (OutputTexture.new 1 1 .RGBAF32), 1, 1, .RGBAF32⟩ =
      .error .UnsupportedFormat ∧
    FrameBufferError.UnsupportedFormat ≠ .UnsupportedPreviousFormat := by
  exact ⟨greyscale_rgbaf32_fb ⟨false⟩ (OutputTexture.new 1 1 .RGBAF32) 1 1, by simp⟩

theorem writeBytes_append (data : List Nat) (off : Nat) (bs1 bs2 : List Nat) :
    writeBytes data off (bs1 ++ bs2) =
      writeBytes (writeBytes data off bs1) (off + bs1.length) bs2 := by
  induction bs1 generalizing data off with
  | nil => simp [writeBytes]
  | cons b bs ih =>
    show writeBytes (data.set off b) (off + 1) (bs ++ bs2) = _
    rw [ih]
    have heq : off + (b :: bs).length = off + 1 + bs.length := by
      simp only [List.length_cons]
      omega
    rw [heq]
    rfl

theorem set_writeBytes_comm (bs : List Nat) (data : List Nat) (i v off : Nat)
    (h : i < off ∨ off + bs.length ≤ i) :
    writeBytes (data.set i v) off bs = (writeBytes data off bs).set i v := by
  induction bs generalizing data off with
  | nil => simp [writeBytes]
  | cons b rest ih =>
    show writeBytes ((data.set i v).set off b) (off + 1) rest =
      (writeBytes (data.set off b) (off + 1) rest).set i v
    rw [List.set_comm v b data (show i ≠ off by simp only [List.length_cons] at h; omega)]
    exact ih (data.set off b) (off + 1) (by simp only [List.length_cons] at h; omega)

theorem writeBytes_comm (bs1 bs2 : List Nat) (data : List Nat) (off1 off2 : Nat)
    (h : off1 + bs1.length ≤ off2 ∨ off2 + bs2.length ≤ off1) :
    writeBytes (writeBytes data off1 bs1) off2 bs2 =
      writeBytes (writeBytes data off2 bs2) off1 bs1 := by
  induction bs1 generalizing data off1 with
  | nil => simp [writeBytes]
  | cons b rest ih =>
    show writeBytes (writeBytes (data.set off1 b) (off1 + 1) rest) off2 bs2 =
      writeBytes ((writeBytes data off2 bs2).set off1 b) (off1 + 1) rest
    rw [← set_writeBytes_comm bs2 data off1 b off2
      (by simp only [List.length_cons] at h; omega)]
    exact ih (data.set off1 b) (off1 + 1)
      (by simp only [List.length_cons] at h; omega)

theorem texelBytes_length (fmt : Format) (tx : Texel) (bs : List Nat)
    (h : texelBytes fmt tx = some bs) : bs.length = fmt.texel_size := by
  cases fmt <;> cases tx <;> simp only [texelBytes] at h
  all_goals try exact Option.noConfusion h
  all_goals
    (injection h with h2
     subst h2
     simp [u32Bytes, Format.texel_size])

theorem set_eq_writeBytes (t : OutputTexture) (p : Pos) (tx : Texel)
    (hx : p.x < t.width) (hy : p.y < t.height) :
    t.set p tx = some ({ t with data := setBytesData t p tx },
      (texelBytes t.format tx).isSome) := by
  obtain ⟨w, h, fmt, data⟩ := t
  obtain ⟨x, y⟩ := p
  simp only at hx hy ⊢
  have hbo : OutputTexture.base_offset ⟨w, h, fmt, data⟩ x y =
      some (y * w * fmt.texel_size + x * fmt.texel_size) := by
    simp only [OutputTexture.base_offset]
    rw [if_neg (by omega)]
  unfold OutputTexture.set
  rw [hbo]
  cases fmt <;> cases tx <;> rfl

theorem set_out_of_range (t : OutputTexture) (p : Pos) (tx : Texel)
    (h : ¬(p.x < t.width ∧ p.y < t.height)) : t.set p tx = none := by
  unfold OutputTexture.set
  have hbo : t.base_offset p.x p.y = none := by
    unfold OutputTexture.base_offset
    rw [if_pos (by omega)]
  rw [hbo]

theorem pos_offsets_disjoint (w h s x1 y1 x2 y2 : Nat)
    (h1x : x1 < w) (h1y : y1 < h) (h2x : x2 < w) (h2y : y2 < h)
    (hne : ¬(x1 = x2 ∧ y1 = y2)) :
    y1 * w * s + x1 * s + s ≤ y2 * w * s + x2 * s ∨
    y2 * w * s + x2 * s + s ≤ y1 * w * s + x1 * s := by
  have hinj : y1 * w + x1 ≠ y2 * w + x2 := by
    intro hc
    have e1 : (x1 + y1 * w) / w = y1 := by
      rw [Nat.add_mul_div_right _ _ (show 0 < w by omega),
        Nat.div_eq_of_lt h1x]
      omega
    have e2 : (x2 + y2 * w) / w = y2 := by
      rw [Nat.add_mul_div_right _ _ (show 0 < w by omega),
        Nat.div_eq_of_lt h2x]
      omega
    have hc2 : x1 + y1 * w = x2 + y2 * w := by omega
    rw [hc2] at e1
    have hy12 : y1 = y2 := by omega
    subst hy12
    exact hne ⟨by omega, rfl⟩
  cases Nat.lt_or_ge (y1 * w + x1) (y2 * w + x2) with
  | inl hlt =>
    left
    have hm : (y1 * w + x1 + 1) * s ≤ (y2 * w + x2) * s :=
      Nat.mul_le_mul_right s (by omega)
    calc y1 * w * s + x1 * s + s = (y1 * w + x1 + 1) * s := by ring
    _ ≤ (y2 * w + x2) * s := hm
    _ = y2 * w * s + x2 * s := by ring
  | inr hge =>
    right
    have hlt2 : y2 * w + x2 < y1 * w + x1 := by omega
    have hm : (y2 * w + x2 + 1) * s ≤ (y1 * w + x1) * s :=
      Nat.mul_le_mul_right s (by omega)
    calc y2 * w * s + x2 * s + s = (y2 * w + x2 + 1) * s := by ring
    _ ≤ (y1 * w + x1) * s := hm
    _ = y1 * w * s + x1 * s := by ring

theorem setBytesData_comm (w h : Nat) (fm : Format) (data : List Nat)
    (p q : Pos) (tx ty : Texel)
    (hx1 : p.x < w) (hx2 : p.y < h) (hy1 : q.x < w) (hy2 : q.y < h)
    (hne : p ≠ q) :
    setBytesData ⟨w, h, fm, setBytesData ⟨w, h, fm, data⟩ p tx⟩ q ty =
    setBytesData ⟨w, h, fm, setBytesData ⟨w, h, fm, data⟩ q ty⟩ p tx := by
  unfold setBytesData
  simp only
  cases hbx : texelBytes fm tx <;> cases hby : texelBytes fm ty
  · rfl
  · rfl
  · rfl
  · rename_i bsx bsy
    have hlx := texelBytes_length fm tx bsx hbx
    have hly := texelBytes_length fm ty bsy hby
    have hpq : ¬(p.x = q.x ∧ p.y = q.y) := by
      intro ⟨e1, e2⟩
      apply hne
      cases p
      cases q
      simp_all
    have hdisj := pos_offsets_disjoint w h fm.texel_size p.x p.y q.x q.y
      hx1 hx2 hy1 hy2 hpq
    exact writeBytes_comm bsx bsy data
      (p.y * w * fm.texel_size + p.x * fm.texel_size)
      (q.y * w * fm.texel_size + q.x * fm.texel_size)
      (by omega)

theorem mergeStep_some (rt : OutputTexture) (r : Pos × Texel) :
    mergeStep (some rt) r =
      match rt.set r.1 r.2 with
      | none => none
      | some (rt2, _) => some rt2 := rfl

theorem mergeStep_comm (rt : OutputTexture) (x y : Pos × Texel)
    (hne : x.1 ≠ y.1) :
    mergeStep (mergeStep (some rt) x) y = mergeStep (mergeStep (some rt) y) x := by
  obtain ⟨w, h, fm, data⟩ := rt
  obtain ⟨p, tx⟩ := x
  obtain ⟨q, ty⟩ := y
  simp only at hne
  by_cases hx : p.x < w ∧ p.y < h
  · by_cases hy : q.x < w ∧ q.y < h
    · have hsx := set_eq_writeBytes ⟨w, h, fm, data⟩ p tx hx.1 hx.2
      have hsy := set_eq_writeBytes ⟨w, h, fm, data⟩ q ty hy.1 hy.2
      have hsx2 := set_eq_writeBytes
        ⟨w, h, fm, setBytesData ⟨w, h, fm, data⟩ q ty⟩ p tx hx.1 hx.2
      have hsy2 := set_eq_writeBytes
        ⟨w, h, fm, setBytesData ⟨w, h, fm, data⟩ p tx⟩ q ty hy.1 hy.2
      simp only [mergeStep_some, hsx, hsy, hsx2, hsy2]
      rw [setBytesData_comm w h fm data p q tx ty hx.1 hx.2 hy.1 hy.2 hne]
    · have hsx := set_eq_writeBytes ⟨w, h, fm, data⟩ p tx hx.1 hx.2
      have hoy : OutputTexture.set ⟨w, h, fm, data⟩ q ty = none :=
        set_out_of_range _ _ _ (by simpa using hy)
      have hoy2 : OutputTexture.set
          ⟨w, h, fm, setBytesData ⟨w, h, fm, data⟩ p tx⟩ q ty = none :=
        set_out_of_range _ _ _ (by simpa using hy)
      simp only [mergeStep_some, hsx, hoy, hoy2]
      rfl
  · by_cases hy : q.x < w ∧ q.y < h
    · have hsy := set_eq_writeBytes ⟨w, h, fm, data⟩ q ty hy.1 hy.2
      have hox : OutputTexture.set ⟨w, h, fm, data⟩ p tx = none :=
        set_out_of_range _ _ _ (by simpa using hx)
      have hox2 : OutputTexture.set
          ⟨w, h, fm, setBytesData ⟨w, h, fm, data⟩ q ty⟩ p tx = none :=
        set_out_of_range _ _ _ (by simpa using hx)
      simp only [mergeStep_some, hox, hsy, hox2]
      rfl
    · have hox : OutputTexture.set ⟨w, h, fm, data⟩ p tx = none :=
        set_out_of_range _ _ _ (by simpa using hx)
      have hoy : OutputTexture.set ⟨w, h, fm, data⟩ q ty = none :=
        set_out_of_range _ _ _ (by simpa using hy)
      simp only [mergeStep_some, hox, hoy]
      rfl

/-- C9 (amended: restricted to deterministic compute functions): for any
pass whose compute objects are a deterministic function of position —
every stock filter except noise in random mode — the merged canvas is
the same for every arrival order of the task results (any permutation of
the row-major task list), and the worker count only sizes the function
pool, whose entries are all equal (`new_function` is deterministic), so
it cannot influence the merged canvas. Noise in random mode draws fresh
OS entropy per texel, so two executions need not be byte-identical at
all (see the counterexample). -/
theorem claim_C9_order_independence :
    (∀ (w h : Nat) (f : Pos → Texel) (rt : OutputTexture)
      (l : List (Pos × Texel)),
      l.Perm (taskResults w h f) →
      mergeResults rt l = mergeResults rt (taskResults w h f)) ∧
    (∀ (F : Type) (newFn : FrameBuffer → Except FrameBufferError F)
      (fb : FrameBuffer) (f : F), newFn fb = .ok f →
      ∀ n, buildFuncs newFn fb n = .ok (List.replicate n f)) := by
  constructor
  · intro w h f rt l hperm
    unfold mergeResults
    refine hperm.foldl_eq' ?_ (some rt)
    intro x hxl y hyl z
    by_cases hxy : x = y
    · subst hxy
      rfl
    · obtain ⟨hxx, hxy2, hxf⟩ := taskResults_mem w h f x (hperm.mem_iff.mp hxl)
      obtain ⟨hyx, hyy2, hyf⟩ := taskResults_mem w h f y (hperm.mem_iff.mp hyl)
      have hne : x.1 ≠ y.1 := by
        intro hc
        apply hxy
        obtain ⟨xp, xt⟩ := x
        obtain ⟨yp, yt⟩ := y
        simp only at hc hxf hyf
        subst hc
        rw [hxf, hyf]
      cases z with
      | none => rfl
      | some rt0 => exact mergeStep_comm rt0 x y hne
  · intro F newFn fb f hf n
    exact buildFuncs_ok newFn fb f hf n

/-- Witness for C9 (amended): swapping the arrival order of the two
tasks of a 2 by 1 canvas yields the same merged canvas, and an 8-worker
pool is filled with eight copies of the same compute object. -/
theorem claim_C9_witness :
    mergeResults (OutputTexture.new 2 1 .L8)
        [(⟨1, 0⟩, Texel.L8 5), (⟨0, 0⟩, Texel.L8 7)] =
      mergeResults (OutputTexture.new 2 1 .L8)
        (taskResults 2 1 (fun p => if p.x = 0 then Texel.L8 7 else Texel.L8 5)) ∧
    buildFuncs (fun _ => .ok 42) ⟨none, 1, 1, .L8⟩ 8 =
      .ok (List.replicate 8 42) :=
  ⟨claim_C9_order_independence.1 2 1
      (fun p => if p.x = 0 then Texel.L8 7 else Texel.L8 5)
      (OutputTexture.new 2 1 .L8)
      [(⟨1, 0⟩, Texel.L8 5), (⟨0, 0⟩, Texel.L8 7)] (by decide),
   claim_C9_order_independence.2 Nat (fun _ => .ok 42) ⟨none, 1, 1, .L8⟩ 42 rfl 8⟩

/-- C9 counterexample to the claim as stated (for EVERY pipeline
configuration): with the noise filter in random mode, each texel is a
fresh draw from OS entropy (`OsRng`), which is not part of the pipeline
configuration; two executions of the very same 1-pass, 1 by 1, L8
configuration — e.g. one with 1 worker and one with 8 — observe
different entropy streams (here the all-0 and all-1 streams) and merge
different canvas bytes, so the final canvases are not byte-identical. -/
theorem claim_C9_counterexample :
    mergeResults (OutputTexture.new 1 1 .L8)
        (taskResults 1 1 (noiseRandomApply (fun _ _ => 0) .L8)) ≠
      mergeResults (OutputTexture.new 1 1 .L8)
        (taskResults 1 1 (noiseRandomApply (fun _ _ => 1) .L8)) := by decide

theorem roundHalfEven_dist (x : ℚ) : |(roundHalfEven x : ℚ) - x| ≤ 1 / 2 := by
  have hf1 : ((⌊x⌋ : ℚ)) ≤ x := Int.floor_le x
  have hf2 : x < (⌊x⌋ : ℚ) + 1 := Int.lt_floor_add_one x
  unfold roundHalfEven
  split_ifs with h1 h2 h3 <;> (rw [abs_le]; push_cast; constructor <;> linarith)

theorem log2_eq_of (q : ℚ) (e : ℤ) (h0 : 0 < q) (h1 : (2 : ℚ) ^ e ≤ q)
    (h2 : q < (2 : ℚ) ^ (e + 1)) : Int.log 2 q = e := by
  have hL1 : ((2 : ℕ) : ℚ) ^ Int.log 2 q ≤ q :=
    Int.zpow_log_le_self (by norm_num) h0
  have hL2 : q < ((2 : ℕ) : ℚ) ^ (Int.log 2 q + 1) :=
    Int.lt_zpow_succ_log_self (by norm_num) q
  push_cast at hL1 hL2
  by_contra hne
  rcases lt_or_gt_of_ne hne with h | h
  · have hle : ((2 : ℚ)) ^ (Int.log 2 q + 1) ≤ 2 ^ e :=
      zpow_le_zpow_right₀ (by norm_num) (by omega)
    linarith
  · have hle : ((2 : ℚ)) ^ (e + 1) ≤ 2 ^ (Int.log 2 q) :=
      zpow_le_zpow_right₀ (by norm_num) (by omega)
    linarith

theorem rnd64Pos_err (q : ℚ) (hq : 0 < q) : |rnd64Pos q - q| ≤ q / 2 ^ 53 := by
  set e := Int.log 2 q with he
  set scaled := q * 2 ^ ((52 : ℤ) - e) with hscd
  have hps2 : (0 : ℚ) < 2 ^ (e - 52) := zpow_pos (by norm_num) _
  have hdist := roundHalfEven_dist scaled
  have hqe : scaled * 2 ^ (e - 52) = q := by
    rw [hscd, mul_assoc, ← zpow_add₀ (show (2 : ℚ) ≠ 0 by norm_num)]
    norm_num
  have hze : (2 : ℚ) ^ e ≤ q := by
    have h := Int.zpow_log_le_self (show 1 < 2 by norm_num) hq
    rw [← he] at h
    exact_mod_cast h
  have key : (1 / 2) * (2 : ℚ) ^ (e - 52) = (2 : ℚ) ^ e / 2 ^ 53 := by
    rw [zpow_sub₀ (show (2 : ℚ) ≠ 0 by norm_num)]
    rw [show ((2 : ℚ) ^ (52 : ℤ)) = 2 ^ (52 : ℕ) from by norm_num]
    field_simp
    ring_nf
    tauto
  have main : |rnd64Pos q - q| = |(roundHalfEven scaled : ℚ) - scaled| *
      2 ^ (e - 52) := by
    rw [rnd64Pos, ← he, ← hscd]
    rw [show (roundHalfEven scaled : ℚ) * 2 ^ (e - 52) - q =
        ((roundHalfEven scaled : ℚ) - scaled) * 2 ^ (e - 52) from by
      rw [sub_mul, hqe]]
    rw [abs_mul, abs_of_pos hps2]
  rw [main]
  calc |(roundHalfEven scaled : ℚ) - scaled| * 2 ^ (e - 52)
      ≤ (1 / 2) * 2 ^ (e - 52) :=
        mul_le_mul_of_nonneg_right hdist (le_of_lt hps2)
    _ = (2 : ℚ) ^ e / 2 ^ 53 := key
    _ ≤ q / 2 ^ 53 := by
        apply div_le_div_of_nonneg_right hze
        norm_num

theorem rnd64_err (q : ℚ) (hq : 0 ≤ q) : |rnd64 q - q| ≤ q / 2 ^ 53 := by
  rcases eq_or_lt_of_le hq with h | h
  · rw [rnd64, if_pos h.symm, ← h]
    norm_num
  · rw [rnd64, if_neg (ne_of_gt h), if_neg (not_lt.mpr h.le)]
    exact rnd64Pos_err q h

theorem rnd64_nonneg (q : ℚ) (hq : 0 ≤ q) : 0 ≤ rnd64 q := by
  have h := rnd64_err q hq
  rw [abs_le] at h
  have h2 : q / 2 ^ 53 ≤ q := div_le_self hq (by norm_num)
  linarith [h.1]

theorem rnd64_eval (q v : ℚ) (e m0 : ℤ)
    (h0 : 0 < q) (h1 : (2 : ℚ) ^ e ≤ q) (h2 : q < (2 : ℚ) ^ (e + 1))
    (hm0 : ⌊q * (2 : ℚ) ^ ((52 : ℤ) - e)⌋ = m0)
    (hv : ((if q * (2 : ℚ) ^ ((52 : ℤ) - e) - m0 < 1 / 2 then (m0 : ℚ)
      else if 1 / 2 < q * (2 : ℚ) ^ ((52 : ℤ) - e) - m0 then ((m0 + 1 : ℤ) : ℚ)
      else if m0 % 2 = 0 then (m0 : ℚ) else ((m0 + 1 : ℤ) : ℚ)) *
        (2 : ℚ) ^ (e - 52)) = v) :
    rnd64 q = v := by
  have hlog : Int.log 2 q = e := log2_eq_of q e h0 h1 h2
  rw [rnd64, if_neg (ne_of_gt h0), if_neg (not_lt.mpr h0.le), rnd64Pos, hlog,
    roundHalfEven, hm0]
  rw [← hv]
  split_ifs <;> push_cast <;> ring

theorem div253_mono {x y : ℚ} (h : x ≤ y) : x / 2 ^ 53 ≤ y / 2 ^ 53 := by
  linarith

set_option maxHeartbeats 1000000 in
theorem lumaF64_floor (r g b : Nat) (hr : r ≤ 255) (hg : g ≤ 255) (hb : b ≤ 255)
    (hmod : (257 * r + 504 * g + 98 * b) % 1000 ≠ 0) :
    ⌊lumaF64 r g b⌋ = ((257 * r + 504 * g + 98 * b) / 1000 + 16 : ℕ) := by
  have hrQ : ((r : ℚ)) ≤ 255 := by exact_mod_cast hr
  have hgQ : ((g : ℚ)) ≤ 255 := by exact_mod_cast hg
  have hbQ : ((b : ℚ)) ≤ 255 := by exact_mod_cast hb
  have hr0 : (0 : ℚ) ≤ r := Nat.cast_nonneg r
  have hg0 : (0 : ℚ) ≤ g := Nat.cast_nonneg g
  have hb0 : (0 : ℚ) ≤ b := Nat.cast_nonneg b
  unfold lumaF64
  dsimp only
  set c1 := rnd64 (257 / 1000) with hc1d
  set c2 := rnd64 (504 / 1000) with hc2d
  set c3 := rnd64 (98 / 1000) with hc3d
  set t1 := rnd64 (c1 * r) with ht1d
  set t2 := rnd64 (c2 * g) with ht2d
  set t3 := rnd64 (c3 * b) with ht3d
  set s1 := rnd64 (t1 + t2) with hs1d
  set s2 := rnd64 (s1 + t3) with hs2d
  set s3 := rnd64 (s2 + 16) with hs3d
  -- constants
  have hc1e : |c1 - 257 / 1000| ≤ 1 / 2 ^ 53 := by
    refine le_trans (rnd64_err _ (by norm_num)) (by norm_num)
  have hc2e : |c2 - 504 / 1000| ≤ 1 / 2 ^ 53 := by
    refine le_trans (rnd64_err _ (by norm_num)) (by norm_num)
  have hc3e : |c3 - 98 / 1000| ≤ 1 / 2 ^ 53 := by
    refine le_trans (rnd64_err _ (by norm_num)) (by norm_num)
  have hc1p : 0 ≤ c1 := rnd64_nonneg _ (by norm_num)
  have hc2p : 0 ≤ c2 := rnd64_nonneg _ (by norm_num)
  have hc3p : 0 ≤ c3 := rnd64_nonneg _ (by norm_num)
  have hc1u : c1 ≤ 1 := by
    have h := (abs_le.mp hc1e).2
    have : (257 : ℚ) / 1000 + 1 / 2 ^ 53 ≤ 1 := by norm_num
    linarith
  have hc2u : c2 ≤ 1 := by
    have h := (abs_le.mp hc2e).2
    have : (504 : ℚ) / 1000 + 1 / 2 ^ 53 ≤ 1 := by norm_num
    linarith
  have hc3u : c3 ≤ 1 := by
    have h := (abs_le.mp hc3e).2
    have : (98 : ℚ) / 1000 + 1 / 2 ^ 53 ≤ 1 := by norm_num
    linarith
  -- products
  have ht1a0 : (0 : ℚ) ≤ c1 * r := mul_nonneg hc1p hr0
  have ht2a0 : (0 : ℚ) ≤ c2 * g := mul_nonneg hc2p hg0
  have ht3a0 : (0 : ℚ) ≤ c3 * b := mul_nonneg hc3p hb0
  have ht1au : c1 * r ≤ 255 := by
    calc c1 * r ≤ 1 * 255 := mul_le_mul hc1u hrQ hr0 (by norm_num)
      _ = 255 := by ring
  have ht2au : c2 * g ≤ 255 := by
    calc c2 * g ≤ 1 * 255 := mul_le_mul hc2u hgQ hg0 (by norm_num)
      _ = 255 := by ring
  have ht3au : c3 * b ≤ 255 := by
    calc c3 * b ≤ 1 * 255 := mul_le_mul hc3u hbQ hb0 (by norm_num)
      _ = 255 := by ring
  have ht1p : 0 ≤ t1 := rnd64_nonneg _ ht1a0
  have ht2p : 0 ≤ t2 := rnd64_nonneg _ ht2a0
  have ht3p : 0 ≤ t3 := rnd64_nonneg _ ht3a0
  have ht1e0 : |t1 - c1 * r| ≤ 255 / 2 ^ 53 := by
    exact le_trans (rnd64_err _ ht1a0) (div253_mono ht1au)
  have ht2e0 : |t2 - c2 * g| ≤ 255 / 2 ^ 53 := by
    exact le_trans (rnd64_err _ ht2a0) (div253_mono ht2au)
  have ht3e0 : |t3 - c3 * b| ≤ 255 / 2 ^ 53 := by
    exact le_trans (rnd64_err _ ht3a0) (div253_mono ht3au)
  have ht1e : |t1 - 257 / 1000 * r| ≤ 510 / 2 ^ 53 := by
    have htri := abs_sub_le t1 (c1 * r) (257 / 1000 * r)
    have hmm : |c1 * r - 257 / 1000 * r| ≤ 255 / 2 ^ 53 := by
      rw [show c1 * (r : ℚ) - 257 / 1000 * r = (c1 - 257 / 1000) * r from by ring,
        abs_mul, abs_of_nonneg hr0]
      calc |c1 - 257 / 1000| * r ≤ (1 / 2 ^ 53) * 255 :=
            mul_le_mul hc1e hrQ hr0 (by norm_num)
        _ = 255 / 2 ^ 53 := by ring
    linarith
  have ht2e : |t2 - 504 / 1000 * g| ≤ 510 / 2 ^ 53 := by
    have htri := abs_sub_le t2 (c2 * g) (504 / 1000 * g)
    have hmm : |c2 * g - 504 / 1000 * g| ≤ 255 / 2 ^ 53 := by
      rw [show c2 * (g : ℚ) - 504 / 1000 * g = (c2 - 504 / 1000) * g from by ring,
        abs_mul, abs_of_nonneg hg0]
      calc |c2 - 504 / 1000| * g ≤ (1 / 2 ^ 53) * 255 :=
            mul_le_mul hc2e hgQ hg0 (by norm_num)
        _ = 255 / 2 ^ 53 := by ring
    linarith
  have ht3e : |t3 - 98 / 1000 * b| ≤ 510 / 2 ^ 53 := by
    have htri := abs_sub_le t3 (c3 * b) (98 / 1000 * b)
    have hmm : |c3 * b - 98 / 1000 * b| ≤ 255 / 2 ^ 53 := by
      rw [show c3 * (b : ℚ) - 98 / 1000 * b = (c3 - 98 / 1000) * b from by ring,
        abs_mul, abs_of_nonneg hb0]
      calc |c3 - 98 / 1000| * b ≤ (1 / 2 ^ 53) * 255 :=
            mul_le_mul hc3e hbQ hb0 (by norm_num)
        _ = 255 / 2 ^ 53 := by ring
    linarith
  -- exact channel terms are bounded
  have hx1 : (257 : ℚ) / 1000 * r ≤ 257 / 1000 * 255 := by
    apply mul_le_mul_of_nonneg_left hrQ
    norm_num
  have hx2 : (504 : ℚ) / 1000 * g ≤ 504 / 1000 * 255 := by
    apply mul_le_mul_of_nonneg_left hgQ
    norm_num
  have hx3 : (98 : ℚ) / 1000 * b ≤ 98 / 1000 * 255 := by
    apply mul_le_mul_of_nonneg_left hbQ
    norm_num
  have hx1p : (0 : ℚ) ≤ 257 / 1000 * r := by positivity
  have hx2p : (0 : ℚ) ≤ 504 / 1000 * g := by positivity
  have hx3p : (0 : ℚ) ≤ 98 / 1000 * b := by positivity
  -- s1
  have hs1a0 : (0 : ℚ) ≤ t1 + t2 := add_nonneg ht1p ht2p
  have hs1au : t1 + t2 ≤ 255 := by
    have h1 := (abs_le.mp ht1e).2
    have h2 := (abs_le.mp ht2e).2
    have : (257 : ℚ) / 1000 * 255 + 510 / 2 ^ 53 + (504 / 1000 * 255 + 510 / 2 ^ 53) ≤ 255 := by
      norm_num
    linarith
  have hs1p : 0 ≤ s1 := rnd64_nonneg _ hs1a0
  have hs1e0 : |s1 - (t1 + t2)| ≤ 255 / 2 ^ 53 := by
    exact le_trans (rnd64_err _ hs1a0) (div253_mono hs1au)
  have hs1e : |s1 - (257 / 1000 * r + 504 / 1000 * g)| ≤ 1275 / 2 ^ 53 := by
    have htri := abs_sub_le s1 (t1 + t2) (257 / 1000 * r + 504 / 1000 * g)
    have hmm : |t1 + t2 - (257 / 1000 * r + 504 / 1000 * g)| ≤ 1020 / 2 ^ 53 := by
      have h := abs_add (t1 - 257 / 1000 * r) (t2 - 504 / 1000 * g)
      rw [show t1 - 257 / 1000 * (r : ℚ) + (t2 - 504 / 1000 * g) =
          t1 + t2 - (257 / 1000 * r + 504 / 1000 * g) from by ring] at h
      linarith
    linarith
  -- s2
  have hs2a0 : (0 : ℚ) ≤ s1 + t3 := add_nonneg hs1p ht3p
  have hs2au : s1 + t3 ≤ 255 := by
    have h1 := (abs_le.mp hs1e).2
    have h2 := (abs_le.mp ht3e).2
    have : (257 : ℚ) / 1000 * 255 + 504 / 1000 * 255 + 1275 / 2 ^ 53 +
        (98 / 1000 * 255 + 510 / 2 ^ 53) ≤ 255 := by norm_num
    linarith
  have hs2p : 0 ≤ s2 := rnd64_nonneg _ hs2a0
  have hs2e0 : |s2 - (s1 + t3)| ≤ 255 / 2 ^ 53 := by
    exact le_trans (rnd64_err _ hs2a0) (div253_mono hs2au)
  have hs2e : |s2 - (257 / 1000 * r + 504 / 1000 * g + 98 / 1000 * b)| ≤
      2040 / 2 ^ 53 := by
    have htri := abs_sub_le s2 (s1 + t3)
      (257 / 1000 * r + 504 / 1000 * g + 98 / 1000 * b)
    have hmm : |s1 + t3 - (257 / 1000 * r + 504 / 1000 * g + 98 / 1000 * b)| ≤
        1785 / 2 ^ 53 := by
      have h := abs_add (s1 - (257 / 1000 * r + 504 / 1000 * g))
        (t3 - 98 / 1000 * b)
      rw [show s1 - (257 / 1000 * (r : ℚ) + 504 / 1000 * g) +
          (t3 - 98 / 1000 * b) =
          s1 + t3 - (257 / 1000 * r + 504 / 1000 * g + 98 / 1000 * b) from
          by ring] at h
      linarith
    linarith
  -- s3
  have hs3a0 : (0 : ℚ) ≤ s2 + 16 := by linarith
  have hs3au : s2 + 16 ≤ 255 := by
    have h2 := (abs_le.mp hs2e).2
    have : (257 : ℚ) / 1000 * 255 + 504 / 1000 * 255 + 98 / 1000 * 255 +
        2040 / 2 ^ 53 + 16 ≤ 255 := by norm_num
    linarith
  have hs3p : 0 ≤ s3 := rnd64_nonneg _ hs3a0
  have hs3e0 : |s3 - (s2 + 16)| ≤ 255 / 2 ^ 53 := by
    exact le_trans (rnd64_err _ hs3a0) (div253_mono hs3au)
  have hs3e : |s3 - (257 / 1000 * r + 504 / 1000 * g + 98 / 1000 * b + 16)| ≤
      2295 / 2 ^ 53 := by
    have htri := abs_sub_le s3 (s2 + 16)
      (257 / 1000 * r + 504 / 1000 * g + 98 / 1000 * b + 16)
    have hmm : |s2 + 16 - (257 / 1000 * r + 504 / 1000 * g + 98 / 1000 * b + 16)| ≤
        2040 / 2 ^ 53 := by
      rw [show s2 + 16 - (257 / 1000 * (r : ℚ) + 504 / 1000 * g +
          98 / 1000 * b + 16) =
          s2 - (257 / 1000 * r + 504 / 1000 * g + 98 / 1000 * b) from by ring]
      exact hs2e
    linarith
  have hs3u : s3 ≤ 255 := by
    have h2 := (abs_le.mp hs3e).2
    have : (257 : ℚ) / 1000 * 255 + 504 / 1000 * 255 + 98 / 1000 * 255 + 16 +
        2295 / 2 ^ 53 ≤ 255 := by norm_num
    linarith
  rw [max_eq_left hs3p, min_eq_left hs3u]
  -- the exact sum as a fraction over 1000
  have hN : (257 : ℚ) / 1000 * r + 504 / 1000 * g + 98 / 1000 * b + 16 =
      ((257 * r + 504 * g + 98 * b : ℕ) : ℚ) / 1000 + 16 := by
    push_cast
    ring
  set N : ℕ := 257 * r + 504 * g + 98 * b with hNd
  have hkm : 1000 * (N / 1000) + N % 1000 = N := Nat.div_add_mod N 1000
  have hm1 : 1 ≤ N % 1000 := Nat.one_le_iff_ne_zero.mpr hmod
  have hm2 : N % 1000 < 1000 := Nat.mod_lt N (by norm_num)
  have hNQ : ((N : ℚ)) = 1000 * ((N / 1000 : ℕ) : ℚ) + ((N % 1000 : ℕ) : ℚ) := by
    exact_mod_cast hkm.symm
  have hmQ1 : (1 : ℚ) ≤ ((N % 1000 : ℕ) : ℚ) := by exact_mod_cast hm1
  have hmQ2 : ((N % 1000 : ℕ) : ℚ) ≤ 999 := by
    have : N % 1000 ≤ 999 := by omega
    exact_mod_cast this
  rw [hN] at hs3e
  have habs := abs_le.mp hs3e
  rw [hNQ] at habs
  have heps : (2295 : ℚ) / 2 ^ 53 ≤ 1 / 2000 := by norm_num
  have hgoal : ((((N / 1000 + 16 : ℕ) : ℤ)) : ℚ) = ((N / 1000 : ℕ) : ℚ) + 16 := by
    rw [Int.cast_natCast, Nat.cast_add]
    norm_num
  rw [Int.floor_eq_iff]
  rw [hgoal]
  constructor
  · linarith [habs.1, hmQ1, heps]
  · linarith [habs.2, hmQ2, heps]

/-- C7: the RGBA8→L8/LA8 narrowing. Corrected statement: in
`greyscale::Func::apply` the produced luma is the `f64` evaluation of
`clamp(0.257*R + 0.504*G + 0.098*B + 16, 0, 255)` truncated toward zero,
which for every channel triple with `(257*R + 504*G + 98*B) % 1000 ≠ 0`
equals truncating the exact real formula, and the `LA8` alpha is the
source alpha; but `resample::Func::convert` performs no luma computation
at all: its `L8` arm keeps the red channel and its `LA8` arm keeps
(red, green) — neither the claimed luma nor the claimed alpha
passthrough. -/
theorem claim_C7_narrowing_luma (r g b a : Nat) (hr : r ≤ 255)
    (hg : g ≤ 255) (hb : b ≤ 255)
    (hmod : (257 * r + 504 * g + 98 * b) % 1000 ≠ 0) :
    greyscaleApply .L8 (.RGBA8 r g b a) =
      some (.L8 ((257 * r + 504 * g + 98 * b) / 1000 + 16)) ∧
    greyscaleApply .LA8 (.RGBA8 r g b a) =
      some (.LA8 ((257 * r + 504 * g + 98 * b) / 1000 + 16) a) ∧
    resampleConvert .L8 (.RGBA8 r g b a) = some (.L8 r) ∧
    resampleConvert .LA8 (.RGBA8 r g b a) = some (.LA8 r g) := by
  have hf := lumaF64_floor r g b hr hg hb hmod
  have htn : Int.toNat ⌊lumaF64 r g b⌋ =
      (257 * r + 504 * g + 98 * b) / 1000 + 16 := by
    rw [hf]
    exact Int.toNat_natCast _
  refine ⟨?g1, ?g2, ?g3, ?g4⟩
  · simp [greyscaleApply, Texel.rgba, htn]
  · simp [greyscaleApply, Texel.rgba, htn]
  · rfl
  · rfl

/-- Witness for C7 at the texel `RGBA8 (10, 20, 30, 40)`: all hypotheses
hold (`257*10 + 504*20 + 98*30 = 15590`, not a multiple of 1000), the
greyscale luma is `15590 / 1000 + 16 = 31`, and the resample arms keep
red and (red, green). -/
theorem claim_C7_witness :
    10 ≤ 255 ∧ 20 ≤ 255 ∧ 30 ≤ 255 ∧
      (257 * 10 + 504 * 20 + 98 * 30) % 1000 ≠ 0 ∧
      (greyscaleApply .L8 (.RGBA8 10 20 30 40) =
          some (.L8 ((257 * 10 + 504 * 20 + 98 * 30) / 1000 + 16)) ∧
        greyscaleApply .LA8 (.RGBA8 10 20 30 40) =
          some (.LA8 ((257 * 10 + 504 * 20 + 98 * 30) / 1000 + 16) 40) ∧
        resampleConvert .L8 (.RGBA8 10 20 30 40) = some (.L8 10) ∧
        resampleConvert .LA8 (.RGBA8 10 20 30 40) = some (.LA8 10 20)) :=
  ⟨by norm_num, by norm_num, by norm_num, by norm_num,
    claim_C7_narrowing_luma 10 20 30 40 (by norm_num) (by norm_num)
      (by norm_num) (by norm_num)⟩

/-- C7 counterexample to the claim as stated. First, `resample` narrowing
ignores the luma formula entirely: converting `RGBA8 (0, 255, 0, 7)` to
`L8` yields the red channel `0`, while the claimed luma is
`(257*0 + 504*255 + 98*0) / 1000 + 16 = 144`. Second, even in `greyscale`
the `f64` evaluation can differ from the exact real formula: at
`(R, G, B) = (2, 156, 19)` the exact clamp value is `97.0` on the nose
(a lattice point, `257*2 + 504*156 + 98*19 = 81000`), but the binary64
intermediate roundings land just below it, so the code produces `96`,
not the claimed `97`. -/
theorem claim_C7_counterexample :
    (resampleConvert .L8 (.RGBA8 0 255 0 7) = some (.L8 0) ∧
      (257 * 0 + 504 * 255 + 98 * 0) / 1000 + 16 = 144 ∧ (0 : Nat) ≠ 144) ∧
    (greyscaleApply .L8 (.RGBA8 2 156 19 0) = some (.L8 96) ∧
      (257 * 2 + 504 * 156 + 98 * 19) / 1000 + 16 = 97 ∧ (96 : Nat) ≠ 97) := by
  have h96 : Int.toNat ⌊lumaF64 2 156 19⌋ = 96 := by
    have h1 : rnd64 (257 / 1000 : ℚ) = (2314850208468435 / 9007199254740992 : ℚ) :=
      rnd64_eval (257 / 1000 : ℚ) (2314850208468435 / 9007199254740992 : ℚ) (-2) (4629700416936869) (by norm_num) (by norm_num)
        (by norm_num) (by norm_num) (by norm_num)
    have h2 : rnd64 (63 / 125 : ℚ) = (1134907106097365 / 2251799813685248 : ℚ) :=
      rnd64_eval (63 / 125 : ℚ) (1134907106097365 / 2251799813685248 : ℚ) (-1) (4539628424389459) (by norm_num) (by norm_num)
        (by norm_num) (by norm_num) (by norm_num)
    have h3 : rnd64 (49 / 500 : ℚ) = (3530822107858469 / 36028797018963968 : ℚ) :=
      rnd64_eval (49 / 500 : ℚ) (3530822107858469 / 36028797018963968 : ℚ) (-4) (7061644215716937) (by norm_num) (by norm_num)
        (by norm_num) (by norm_num) (by norm_num)
    have h4 : rnd64 (2314850208468435 / 4503599627370496 : ℚ) = (2314850208468435 / 4503599627370496 : ℚ) :=
      rnd64_eval (2314850208468435 / 4503599627370496 : ℚ) (2314850208468435 / 4503599627370496 : ℚ) (-1) (4629700416936870) (by norm_num) (by norm_num)
        (by norm_num) (by norm_num) (by norm_num)
    have h5 : rnd64 (44261377137797235 / 562949953421312 : ℚ) = (2766336071112327 / 35184372088832 : ℚ) :=
      rnd64_eval (44261377137797235 / 562949953421312 : ℚ) (2766336071112327 / 35184372088832 : ℚ) (6) (5532672142224654) (by norm_num) (by norm_num)
        (by norm_num) (by norm_num) (by norm_num)
    have h6 : rnd64 (67085620049310911 / 36028797018963968 : ℚ) = (1048212813270483 / 562949953421312 : ℚ) :=
      rnd64_eval (67085620049310911 / 36028797018963968 : ℚ) (1048212813270483 / 562949953421312 : ℚ) (0) (8385702506163863) (by norm_num) (by norm_num)
        (by norm_num) (by norm_num) (by norm_num)
    have h7 : rnd64 (356405867310846291 / 4503599627370496 : ℚ) = (5568841676731973 / 70368744177664 : ℚ) :=
      rnd64_eval (356405867310846291 / 4503599627370496 : ℚ) (5568841676731973 / 70368744177664 : ℚ) (6) (5568841676731973) (by norm_num) (by norm_num)
        (by norm_num) (by norm_num) (by norm_num)
    have h8 : rnd64 (45598946227126267 / 562949953421312 : ℚ) = (5699868278390783 / 70368744177664 : ℚ) :=
      rnd64_eval (45598946227126267 / 562949953421312 : ℚ) (5699868278390783 / 70368744177664 : ℚ) (6) (5699868278390783) (by norm_num) (by norm_num)
        (by norm_num) (by norm_num) (by norm_num)
    have h9 : rnd64 (6825768185233407 / 70368744177664 : ℚ) = (6825768185233407 / 70368744177664 : ℚ) :=
      rnd64_eval (6825768185233407 / 70368744177664 : ℚ) (6825768185233407 / 70368744177664 : ℚ) (6) (6825768185233407) (by norm_num) (by norm_num)
        (by norm_num) (by norm_num) (by norm_num)
    norm_num [lumaF64, h1, h2, h3, h4, h5, h6, h7, h8, h9]
    rfl
  refine ⟨⟨rfl, by norm_num, by norm_num⟩, ⟨?g, by norm_num, by norm_num⟩⟩
  show (greyscaleApply .L8 (.RGBA8 2 156 19 0) = some (.L8 96))
  simp [greyscaleApply, Texel.rgba, h96]
